import Mathlib

/-!
# init_blockchain: transaction lifecycle of the two command-line programs

A shallow embedding of `src/init_blockchain/main.go` (block query and native
transfer) and `src/init_blockchain/contracts/main.go` (counter contract
deployment and calls).

Both programs are straight-line scripts over external collaborators
(`ethclient.Client`, `crypto`, `types`, `bind`, the generated `counter`
binding).  A collaborator that talks to the node is a field of a record of
functions that, given the current state of the outside world, returns a result
and the next state; a local library function is a plain function of its
arguments.  A run of a program is the list of collaborator calls it made (each with its
arguments and its result), the list of lines it printed, and how it ended.
`log.Fatal`/`log.Fatalf` ends the process: the run stops with `Outcome.fatal`.
-/

namespace InitBlockchain

/-! ## Values of go-ethereum -/

/-- A 20-byte account address (`common.Address`), as the number it encodes. -/
abbrev Address := Nat

/-- A 32-byte hash (`common.Hash`), as the number it encodes. -/
abbrev HashValue := Nat

/-- The value `2^64`: `uint64` values live below it. -/
def uint64Size : Nat := 2 ^ 64

/-- An `ecdsa.PublicKey`. -/
structure ECDSAPublicKey where
  X : Int
  Y : Int

/-- An `ecdsa.PrivateKey`: it embeds its public key. -/
structure PrivateKey where
  PublicKey : ECDSAPublicKey
  D : Int

/-- A value of the interface type `crypto.PublicKey`, by its dynamic type. -/
inductive CryptoPublicKey where
  | ecdsa (k : ECDSAPublicKey)
  | other

/-- The method `(*ecdsa.PrivateKey).Public`: the embedded public key. -/
def PrivateKey.Public (k : PrivateKey) : CryptoPublicKey :=
  .ecdsa k.PublicKey

/-- The signature values `V, R, S` of a signed transaction. -/
structure Signature where
  V : Int
  R : Int
  S : Int

/-- A legacy transaction (`types.Transaction` holding a `types.LegacyTx`).
`sig` is `none` until the transaction is signed. -/
structure Transaction where
  Nonce : Nat
  To : Address
  Value : Int
  Gas : Nat
  GasPrice : Int
  Data : List Nat
  sig : Option Signature

/-- The constructor `types.NewTransaction(nonce, to, amount, gasLimit, gasPrice, data)`:
an unsigned legacy transaction with exactly these fields. -/
def NewTransaction (nonce : Nat) (recipient : Address) (amount : Int) (gasLimit : Nat)
    (gasPrice : Int) (data : List Nat) : Transaction :=
  { Nonce := nonce, To := recipient, Value := amount, Gas := gasLimit,
    GasPrice := gasPrice, Data := data, sig := none }

/-- The method `(*Transaction).WithSignature`: the same transaction fields with
the signature values set. -/
def Transaction.WithSignature (tx : Transaction) (sg : Signature) : Transaction :=
  { tx with sig := some sg }

/-- The signer `types.NewEIP155Signer(chainID)`. -/
structure EIP155Signer where
  chainId : Int

/-- The constructor `types.NewEIP155Signer`. -/
def NewEIP155Signer (chainID : Int) : EIP155Signer :=
  { chainId := chainID }

/-- A block as the program reads it through the accessors of `types.Block`. -/
structure Block where
  Number : Int
  Hash : HashValue
  ParentHash : HashValue
  Time : Nat
  Transactions : List Transaction
  GasUsed : Nat
  GasLimit : Nat
  Coinbase : Address

/-- The method `(*big.Int).Uint64`: the low 64 bits of the absolute value. -/
def bigUint64 (x : Int) : Nat :=
  x.natAbs % uint64Size

/-! ## Collaborators of `main.go` -/

/-- The pure library functions `main.go` calls. -/
structure Lib where
  /-- The function `crypto.HexToECDSA`. -/
  HexToECDSA : String → Except String PrivateKey
  /-- The function `crypto.PubkeyToAddress`. -/
  PubkeyToAddress : ECDSAPublicKey → Address
  /-- The function `common.HexToAddress`. -/
  HexToAddress : String → Address
  /-- The signature `types.SignTx` computes for a transaction, or its error. -/
  Sign : Transaction → EIP155Signer → PrivateKey → Except String Signature
  /-- The method `(*Transaction).Hash`. -/
  TxHash : Transaction → HashValue

/-- The function `types.SignTx(tx, signer, prv)`: the transaction with the
signature of `prv` over it, or the error of signing. -/
def Lib.SignTx (lib : Lib) (tx : Transaction) (signer : EIP155Signer)
    (prv : PrivateKey) : Except String Transaction :=
  match lib.Sign tx signer prv with
  | .error e => .error e
  | .ok sg => .ok (tx.WithSignature sg)

/-- The methods of `*ethclient.Client` that `main.go` calls, over a world state
`σ`.  Every call is made with `context.Background()`. -/
structure Client (σ : Type) where
  BlockNumber : σ → Except String Nat × σ
  BlockByNumber : σ → Option Int → Except String Block × σ
  BalanceAt : σ → Address → Option Int → Except String Int × σ
  PendingNonceAt : σ → Address → Except String Nat × σ
  SuggestGasPrice : σ → Except String Int × σ
  NetworkID : σ → Except String Int × σ
  SendTransaction : σ → Transaction → Except String Unit × σ

/-! ## Runs -/

/-- The context handed to a blocking call: `context.Background()`, which has no
deadline and is never done, or a context with a deadline, counted in ticks of the
polling ticker. -/
inductive Context where
  | Background
  | WithDeadline (ticks : Nat)

/-- Whether `ctx.Done()` is ready after `tick` ticks. -/
def Context.doneAt : Context → Nat → Bool
  | .Background, _ => false
  | .WithDeadline d, tick => decide (d ≤ tick)

/-- The options `bind.TransactOpts` of a keyed transactor. -/
structure TransactOpts where
  From : Address
  chainID : Int

/-- A transaction receipt (`types.Receipt`), by the fields the program could read.
`BlockNumber` is a `*big.Int`: it is `none` when the pointer is nil. -/
structure Receipt where
  BlockNumber : Option Int
  Status : Nat
  GasUsed : Nat

/-- A collaborator call of the two programs, with its arguments and its result. -/
inductive Call where
  | Dial (rawurl : String) (res : Except String Unit)
  | BlockNumber (res : Except String Nat)
  | BlockByNumber (number : Option Int) (res : Except String Block)
  | HexToECDSA (hexkey : String) (res : Except String PrivateKey)
  | BalanceAt (account : Address) (blockNumber : Option Int) (res : Except String Int)
  | PendingNonceAt (account : Address) (res : Except String Nat)
  | SuggestGasPrice (res : Except String Int)
  | NewTransaction (tx : Transaction)
  | NetworkID (res : Except String Int)
  | SignTx (tx : Transaction) (signer : EIP155Signer) (prv : PrivateKey)
      (res : Except String Transaction)
  | SendTransaction (tx : Transaction) (res : Except String Unit)
  | NewKeyedTransactorWithChainID (key : PrivateKey) (chainID : Int)
      (res : Except String TransactOpts)
  | DeployCounter (auth : TransactOpts) (initialCount : Int)
      (res : Except String (Address × Transaction))
  | TransactionReceipt (tx : Transaction) (res : Except String Receipt)
  | WaitMined (ctx : Context) (tx : Transaction) (res : Except String Receipt)
  | Sleep (seconds : Nat)
  | GetCount (contract : Address) (res : Except String Int)
  | Increment (contract : Address) (auth : TransactOpts) (res : Except String Transaction)
  | SetCount (contract : Address) (auth : TransactOpts) (count : Int)
      (res : Except String Transaction)

/-- A line (or group of lines) printed by the programs, by the values it shows. -/
inductive Output where
  | connected
  | header (title : String)
  | latestBlockNumber (n : Nat)
  | queryingLatest
  | queryingBlock (n : Int)
  | blockInfo (number : Nat) (hash parentHash : HashValue) (time : Nat) (txCount : Nat)
      (gasUsed gasLimit : Nat) (coinbase : Address)
  | firstTx (hash : HashValue) (gasPrice : Int) (gas : Nat) (value : Int)
  | keyLoaded
  | fromAddress (a : Address)
  | balance (wei : Int) (eth : String)
  | nonce (n : Nat)
  | gasPrice (g : Int)
  | chainID (id : Int)
  | signed
  | sent (hash : HashValue) (eth : String) (recipient : String)
  | walletAddress (a : Address)
  | txHash (what : String) (hash : HashValue)
  | contractAddress (a : Address)
  | waiting
  | mined (what : String) (blockNumber : Nat)
  | count (what : String) (value : Int)

/-- How a run ended: the function returned, the process was ended by
`log.Fatal`/`log.Fatalf` (with the message format), a runtime panic, or the run
is still blocked inside `bind.WaitMined` after all the polls it was allowed. -/
inductive Outcome where
  | returned
  | fatal (msg : String)
  | panic (msg : String)
  | blocked

/-- A run: the calls made, the lines printed, the outcome and the final world. -/
structure Run (σ : Type) where
  calls : List Call
  out : List Output
  outcome : Outcome
  state : σ

/-- Record a collaborator call in front of the rest of the run. -/
def Run.call {σ : Type} (c : Call) (k : Run σ) : Run σ :=
  { k with calls := c :: k.calls }

/-- Record a printed line in front of the rest of the run. -/
def Run.print {σ : Type} (o : Output) (k : Run σ) : Run σ :=
  { k with out := o :: k.out }

/-- Record a list of collaborator calls in front of the rest of the run. -/
def Run.callsThen {σ : Type} (cs : List Call) (k : Run σ) : Run σ :=
  { k with calls := cs ++ k.calls }

/-- The run that ends here with the given outcome. -/
def Run.stop {σ : Type} (o : Outcome) (s : σ) : Run σ :=
  { calls := [], out := [], outcome := o, state := s }

/-- Sequential composition: the second run starts in the final state of the
first, and only if the first returned. -/
def Run.andThen {σ : Type} (r : Run σ) (k : σ → Run σ) : Run σ :=
  match r.outcome with
  | .returned =>
    let r2 := k r.state
    { calls := r.calls ++ r2.calls, out := r.out ++ r2.out,
      outcome := r2.outcome, state := r2.state }
  | _ => r

/-! ## The arithmetic of `math/big` that `weiToEth` uses -/

/-- The number of bits of `n`, counted by halving at most `fuel` times. -/
def bitLenAux : Nat → Nat → Nat
  | 0, _ => 0
  | fuel + 1, n => if n = 0 then 0 else bitLenAux fuel (n / 2) + 1

/-- The method `(*big.Int).BitLen` on the absolute value: the number of bits of `n`,
and `0` for `0`. -/
def bitLen (n : Nat) : Nat :=
  bitLenAux n n

/-- The integer nearest to `num / den`, a tie going to the even one
(`big.ToNearestEven`, and the half-even rule of `big`'s decimal conversion). -/
def roundHalfEven (num den : Nat) : Nat :=
  let q := num / den
  let r := num % den
  if 2 * r < den then q
  else if den < 2 * r then q + 1
  else if q % 2 = 0 then q else q + 1

/-- A finite `big.Float`: precision, sign, and the magnitude `mant * 2 ^ exp`. -/
structure BigFloat where
  prec : Nat
  neg : Bool
  mant : Nat
  exp : Int

/-- The call `new(big.Float).SetInt(x)`: the receiver has precision 0, so its
precision becomes the larger of `x.BitLen()` and 64 and the value is `x` exactly. -/
def BigFloat.SetInt (x : Int) : BigFloat :=
  { prec := max (bitLen x.natAbs) 64, neg := decide (x < 0), mant := x.natAbs, exp := 0 }

/-- The call `big.NewFloat(1e18)`: precision 53 and the value of the `float64`
constant `1e18`, which is `10 ^ 18` exactly (`10 ^ 18 = 5 ^ 18 * 2 ^ 18` and
`5 ^ 18 < 2 ^ 53`). -/
def NewFloat1e18 : BigFloat :=
  { prec := 53, neg := false, mant := 10 ^ 18, exp := 0 }

/-- The exponent `e` with `2 ^ (e - 1) ≤ a / b < 2 ^ e`, for positive `a` and `b`. -/
def quoExp (a b : Nat) : Int :=
  let e0 : Int := (bitLen a : Int) - (bitLen b : Int)
  if e0 ≥ 0 then
    (if a < b * 2 ^ e0.toNat then e0 else e0 + 1)
  else
    (if a * 2 ^ (-e0).toNat < b then e0 else e0 + 1)

/-- The method `z.Quo(x, y)` with `z` aliasing `x` and `y` finite and not zero: the
quotient `x / y` rounded to the precision of `z` (that of `x`, which is not 0),
to nearest even. -/
def BigFloat.Quo (x y : BigFloat) : BigFloat :=
  if x.mant = 0 then
    { prec := x.prec, neg := xor x.neg y.neg, mant := 0, exp := 0 }
  else
    let shift : Int := (x.prec : Int) - quoExp x.mant y.mant
    let m : Nat :=
      if shift ≥ 0 then roundHalfEven (x.mant * 2 ^ shift.toNat) y.mant
      else roundHalfEven x.mant (y.mant * 2 ^ (-shift).toNat)
    { prec := x.prec, neg := xor x.neg y.neg, mant := m, exp := x.exp - y.exp - shift }

/-- The magnitude of `x` times `10 ^ digits`, rounded half-even to an integer:
the decimal digits `Text('f', digits)` prints, as one number. -/
def BigFloat.scaledDecimal (x : BigFloat) (digits : Nat) : Nat :=
  if x.exp ≥ 0 then x.mant * 2 ^ x.exp.toNat * 10 ^ digits
  else roundHalfEven (x.mant * 10 ^ digits) (2 ^ (-x.exp).toNat)

/-- The last `k` decimal digits of `n`, zero-padded on the left. -/
def fracDigits : Nat → Nat → List Char
  | 0, _ => []
  | k + 1, n => fracDigits k (n / 10) ++ [Nat.digitChar (n % 10)]

/-- The text of a number of `10 ^ -digits` units in the format `%.<digits>f`:
the integer part, a point, and exactly `digits` decimals (`digits > 0`). -/
def fixedText (neg : Bool) (units digits : Nat) : String :=
  String.mk ((if neg then ['-'] else []) ++ (Nat.toDigits 10 (units / 10 ^ digits))
    ++ ['.'] ++ fracDigits digits (units % 10 ^ digits))

/-- The method `x.Text('f', digits)` for a finite `x` and `digits > 0`. -/
def BigFloat.TextF (x : BigFloat) (digits : Nat) : String :=
  fixedText x.neg (x.scaledDecimal digits) digits

/-! ## `main.go` -/

/-- The constant `rpcURL`. -/
def rpcURL : String := "https://sepolia.infura.io/v3/3866392dfd05409abfc3e5da3960669d"

/-- The constant `privateKeyHex`. -/
def privateKeyHex : String :=
  "f8dc09bb7e17795fbbe03ce9b39f7a69c742f1e2fccc0db374e2c03c3ec7b18f"

/-- The constant `toAddress`. -/
def toAddress : String := "0x489C6e2f86d21F84B5207520D070B12573F739F5"

/-- The function `weiToEth`: the quotient of `wei` by `big.NewFloat(1e18)`, as text
with six decimals. -/
def weiToEth (wei : Int) : String :=
  let eth := BigFloat.SetInt wei
  let eth := eth.Quo NewFloat1e18
  eth.TextF 6

/-- The function `queryBlockInfo(client, targetBlockNumber)`. -/
def queryBlockInfo {σ : Type} (lib : Lib) (client : Client σ) (targetBlockNumber : Int)
    (s : σ) : Run σ :=
  let r := client.BlockNumber s
  Run.call (.BlockNumber r.1) <|
  match r.1 with
  | .error _ => Run.stop (.fatal "获取最新区块号失败: %v") r.2
  | .ok latestBlockNumber =>
    Run.print (.latestBlockNumber latestBlockNumber) <|
    let queryBlockNum : Option Int :=
      if targetBlockNumber ≤ 0 then none else some targetBlockNumber
    Run.print (if targetBlockNumber ≤ 0 then .queryingLatest
      else .queryingBlock targetBlockNumber) <|
    let rb := client.BlockByNumber r.2 queryBlockNum
    Run.call (.BlockByNumber queryBlockNum rb.1) <|
    match rb.1 with
    | .error _ => Run.stop (.fatal "获取区块信息失败: %v") rb.2
    | .ok block =>
      Run.print (.blockInfo (bigUint64 block.Number) block.Hash block.ParentHash block.Time
        block.Transactions.length block.GasUsed block.GasLimit block.Coinbase) <|
      if block.Transactions.length > 0 then
        match block.Transactions[0]? with
        | none => Run.stop (.panic "index out of range [0]") rb.2
        | some tx =>
          Run.print (.firstTx (lib.TxHash tx) tx.GasPrice tx.Gas tx.Value) <|
          Run.stop .returned rb.2
      else Run.stop .returned rb.2

/-- The function `sendTransaction(client)`.  The only balance check is the
comparison with zero, which the source introduces with the comment
`检查余额是否足够` (check that the balance is sufficient); the gas price is looked
up after it. -/
def sendTransaction {σ : Type} (lib : Lib) (client : Client σ) (s : σ) : Run σ :=
  let rk := lib.HexToECDSA privateKeyHex
  Run.call (.HexToECDSA privateKeyHex rk) <|
  match rk with
  | .error _ =>
    Run.stop (.fatal "解析私钥失败: %v\n请确保私钥格式正确（不要包含 0x 前缀）") s
  | .ok privateKey =>
    Run.print .keyLoaded <|
    match privateKey.Public with
    | .other => Run.stop (.fatal "获取公钥失败") s
    | .ecdsa publicKeyECDSA =>
      let fromAddress := lib.PubkeyToAddress publicKeyECDSA
      Run.print (.fromAddress fromAddress) <|
      let rb := client.BalanceAt s fromAddress none
      Run.call (.BalanceAt fromAddress none rb.1) <|
      match rb.1 with
      | .error _ => Run.stop (.fatal "获取余额失败: %v") rb.2
      | .ok balance =>
        Run.print (.balance balance (weiToEth balance)) <|
        if balance = 0 then Run.stop (.fatal "账户余额为 0") rb.2
        else
          let rn := client.PendingNonceAt rb.2 fromAddress
          Run.call (.PendingNonceAt fromAddress rn.1) <|
          match rn.1 with
          | .error _ => Run.stop (.fatal "获取 nonce 失败: %v") rn.2
          | .ok nonce =>
            Run.print (.nonce nonce) <|
            let value : Int := 1000000000000000
            let gasLimit : Nat := 21000
            let rg := client.SuggestGasPrice rn.2
            Run.call (.SuggestGasPrice rg.1) <|
            match rg.1 with
            | .error _ => Run.stop (.fatal "获取 gas 价格失败: %v") rg.2
            | .ok gasPrice =>
              Run.print (.gasPrice gasPrice) <|
              let recipient := lib.HexToAddress toAddress
              let tx := NewTransaction nonce recipient value gasLimit gasPrice []
              Run.call (.NewTransaction tx) <|
              let rc := client.NetworkID rg.2
              Run.call (.NetworkID rc.1) <|
              match rc.1 with
              | .error _ => Run.stop (.fatal "获取链 ID 失败: %v") rc.2
              | .ok chainID =>
                Run.print (.chainID chainID) <|
                let rs := lib.SignTx tx (NewEIP155Signer chainID) privateKey
                Run.call (.SignTx tx (NewEIP155Signer chainID) privateKey rs) <|
                match rs with
                | .error _ => Run.stop (.fatal "签名交易失败: %v") rc.2
                | .ok signedTx =>
                  Run.print .signed <|
                  let rt := client.SendTransaction rc.2 signedTx
                  Run.call (.SendTransaction signedTx rt.1) <|
                  match rt.1 with
                  | .error _ => Run.stop (.fatal "发送交易失败: %v") rt.2
                  | .ok _ =>
                    Run.print (.sent (lib.TxHash signedTx) (weiToEth value) toAddress) <|
                    Run.stop .returned rt.2

/-- The function `main` of `main.go`, given the result of `ethclient.Dial(rpcURL)`. -/
def main {σ : Type} (lib : Lib) (dial : σ → String → Except String (Client σ) × σ)
    (s : σ) : Run σ :=
  let rd := dial s rpcURL
  match rd.1 with
  | .error e => Run.call (.Dial rpcURL (.error e)) <|
    Run.stop (.fatal "连接到以太坊节点失败: %v") rd.2
  | .ok client =>
    Run.call (.Dial rpcURL (.ok ())) <|
    Run.print .connected <|
    Run.print (.header "查询区块信息") <|
    (queryBlockInfo lib client 9735711 rd.2).andThen fun s1 =>
    Run.print (.header "发送交易") <|
    sendTransaction lib client s1

/-- A private key for the sample runs. -/
def sampleKey : PrivateKey :=
  { PublicKey := { X := 1, Y := 2 }, D := 3 }

/-! ## `contracts/main.go` -/

namespace Contracts

/-- The constant `rpcURL` of `contracts/main.go`. -/
def rpcURL : String := "https://sepolia.infura.io/v3/3866392dfd05409abfc3e5da3960669d"

/-- The constant `privateKeyHex` of `contracts/main.go`. -/
def privateKeyHex : String :=
  "f8dc09bb7e17795fbbe03ce9b39f7a69c742f1e2fccc0db374e2c03c3ec7b18f"

/-- The collaborators of `contracts/main.go` over a world state `σ`.  The key
functions and `bind.NewKeyedTransactorWithChainID` are local library functions:
they read nothing of the outside world, so their result is a function of their
arguments.  The client and the generated binding of the counter contract (its
methods take the address the instance is bound to) talk to the node: the result
of a call may depend on the state the calls before it left. -/
structure World (σ : Type) where
  Dial : σ → String → Except String Unit × σ
  HexToECDSA : String → Except String PrivateKey
  PubkeyToAddress : ECDSAPublicKey → Address
  TxHash : Transaction → HashValue
  NetworkID : σ → Except String Int × σ
  NewKeyedTransactorWithChainID : PrivateKey → Int → Except String TransactOpts
  DeployCounter : σ → TransactOpts → Int → Except String (Address × Transaction) × σ
  TransactionReceipt : σ → Transaction → Except String Receipt × σ
  GetCount : σ → Address → Except String Int × σ
  Increment : σ → Address → TransactOpts → Except String Transaction × σ
  SetCount : σ → Address → TransactOpts → Int → Except String Transaction × σ

/-- The function `bind.WaitMined(ctx, client, tx)` of go-ethereum, which the program
calls: it asks the client for the receipt of `tx`; a receipt is returned at once;
on an error it waits for the context to be done (then it returns the error of the
context) or for the next tick of its one-second ticker (then it asks again).
`fuel` bounds the number of polls looked at: the result is `none` when the call
has not returned within them.  `tick` counts the ticks waited so far. -/
def WaitMined {σ : Type} (w : World σ) (ctx : Context) (tx : Transaction) :
    Nat → Nat → σ → List Call × Option (Except String Receipt) × σ
  | 0, _, s => ([], none, s)
  | fuel + 1, tick, s =>
    let r := w.TransactionReceipt s tx
    match r.1 with
    | .ok receipt => ([.TransactionReceipt tx r.1], some (.ok receipt), r.2)
    | .error _ =>
      if ctx.doneAt tick then
        ([.TransactionReceipt tx r.1], some (.error "context deadline exceeded"), r.2)
      else
        let rest := WaitMined w ctx tx fuel (tick + 1) r.2
        (.TransactionReceipt tx r.1 :: rest.1, rest.2.1, rest.2.2)

/-- The statement `receipt, err := bind.WaitMined(context.Background(), client, tx)`
followed by `if err != nil { log.Fatalf(..) }`: the polls, then the rest of the
run with the receipt. -/
def awaitMined {σ : Type} (w : World σ) (fuel : Nat) (tx : Transaction) (s : σ)
    (k : Receipt → σ → Run σ) : Run σ :=
  let r := WaitMined w .Background tx fuel 0 s
  Run.callsThen r.1 <|
  match r.2.1 with
  | none => Run.stop .blocked r.2.2
  | some (.error e) =>
    Run.call (.WaitMined .Background tx (.error e)) <|
    Run.stop (.fatal "等待交易确认失败: %v") r.2.2
  | some (.ok receipt) =>
    Run.call (.WaitMined .Background tx (.ok receipt)) <|
    k receipt r.2.2

/-- The value of `auth` after `auth, _ = f(..)`: the pointer returned, `nil` on an
error. -/
def ptrOf {α : Type} : Except String α → Option α
  | .ok a => some a
  | .error _ => none

/-- The function `main` of `contracts/main.go`.  `fuel` bounds the polls of each
`bind.WaitMined`.  The first `bind.NewKeyedTransactorWithChainID` is followed by
an error check; the second and third are written `auth, _ = ..`, which drops the
error and leaves `auth` nil when there is one, and the binding dereferences
`auth`: a nil `auth` is a nil-pointer panic.  `receipt.BlockNumber.Uint64()`
panics in the same way on a receipt whose `BlockNumber` is nil. -/
def main {σ : Type} (w : World σ) (fuel : Nat) (s : σ) : Run σ :=
  let rd := w.Dial s rpcURL
  Run.call (.Dial rpcURL rd.1) <|
  match rd.1 with
  | .error _ => Run.stop (.fatal "连接到以太坊节点失败: %v") rd.2
  | .ok _ =>
    Run.print .connected <|
    let rk := w.HexToECDSA privateKeyHex
    Run.call (.HexToECDSA privateKeyHex rk) <|
    match rk with
    | .error _ => Run.stop (.fatal "解析私钥失败: %v") rd.2
    | .ok privateKey =>
      Run.print .keyLoaded <|
      match privateKey.Public with
      | .other => Run.stop (.fatal "获取公钥失败") rd.2
      | .ecdsa publicKeyECDSA =>
        let fromAddress := w.PubkeyToAddress publicKeyECDSA
        Run.print (.walletAddress fromAddress) <|
        let rc := w.NetworkID rd.2
        Run.call (.NetworkID rc.1) <|
        match rc.1 with
        | .error _ => Run.stop (.fatal "获取链 ID 失败: %v") rc.2
        | .ok chainID =>
          Run.print (.chainID chainID) <|
          let ra := w.NewKeyedTransactorWithChainID privateKey chainID
          Run.call (.NewKeyedTransactorWithChainID privateKey chainID ra) <|
          match ra with
          | .error _ => Run.stop (.fatal "创建交易签名器失败: %v") rc.2
          | .ok auth =>
            Run.print (.header "部署合约") <|
            let initialCount : Int := 100
            let rdep := w.DeployCounter rc.2 auth initialCount
            Run.call (.DeployCounter auth initialCount rdep.1) <|
            match rdep.1 with
            | .error _ => Run.stop (.fatal "部署合约失败: %v") rdep.2
            | .ok (contractAddress, tx) =>
              Run.print (.txHash "合约部署" (w.TxHash tx)) <|
              Run.print (.contractAddress contractAddress) <|
              Run.print .waiting <|
              awaitMined w fuel tx rdep.2 fun receipt s1 =>
              match receipt.BlockNumber with
              | none => Run.stop (.panic "invalid memory address or nil pointer dereference") s1
              | some blockNumber =>
              Run.print (.mined "合约部署" (bigUint64 blockNumber)) <|
              Run.call (.Sleep 3) <|
              Run.print (.header "读取计数器值") <|
              let rg1 := w.GetCount s1 contractAddress
              Run.call (.GetCount contractAddress rg1.1) <|
              match rg1.1 with
              | .error _ => Run.stop (.fatal "读取计数器失败: %v") rg1.2
              | .ok currentCount =>
                Run.print (.count "当前计数器值" currentCount) <|
                Run.print (.header "增加计数器") <|
                let ra2 := w.NewKeyedTransactorWithChainID privateKey chainID
                Run.call (.NewKeyedTransactorWithChainID privateKey chainID ra2) <|
                match ptrOf ra2 with
                | none =>
                  Run.stop (.panic "invalid memory address or nil pointer dereference") rg1.2
                | some auth2 =>
                let ri := w.Increment rg1.2 contractAddress auth2
                Run.call (.Increment contractAddress auth2 ri.1) <|
                match ri.1 with
                | .error _ => Run.stop (.fatal "调用 increment 失败: %v") ri.2
                | .ok incrementTx =>
                  Run.print (.txHash "increment" (w.TxHash incrementTx)) <|
                  Run.print .waiting <|
                  awaitMined w fuel incrementTx ri.2 fun receipt2 s2 =>
                  match receipt2.BlockNumber with
                  | none =>
                    Run.stop (.panic "invalid memory address or nil pointer dereference") s2
                  | some blockNumber2 =>
                  Run.print (.mined "increment" (bigUint64 blockNumber2)) <|
                  Run.call (.Sleep 2) <|
                  let rg2 := w.GetCount s2 contractAddress
                  Run.call (.GetCount contractAddress rg2.1) <|
                  match rg2.1 with
                  | .error _ => Run.stop (.fatal "读取计数器失败: %v") rg2.2
                  | .ok newCount =>
                    Run.print (.count "增加后的计数器值" newCount) <|
                    Run.print (.header "设置计数器值") <|
                    let ra3 := w.NewKeyedTransactorWithChainID privateKey chainID
                    Run.call (.NewKeyedTransactorWithChainID privateKey chainID ra3) <|
                    match ptrOf ra3 with
                    | none =>
                      Run.stop (.panic "invalid memory address or nil pointer dereference") rg2.2
                    | some auth3 =>
                    let rs := w.SetCount rg2.2 contractAddress auth3 999
                    Run.call (.SetCount contractAddress auth3 999 rs.1) <|
                    match rs.1 with
                    | .error _ => Run.stop (.fatal "调用 setCount 失败: %v") rs.2
                    | .ok setCountTx =>
                      Run.print (.txHash "setCount" (w.TxHash setCountTx)) <|
                      Run.print .waiting <|
                      awaitMined w fuel setCountTx rs.2 fun receipt3 s3 =>
                      match receipt3.BlockNumber with
                      | none =>
                        Run.stop (.panic "invalid memory address or nil pointer dereference") s3
                      | some blockNumber3 =>
                      Run.print (.mined "setCount" (bigUint64 blockNumber3)) <|
                      Run.call (.Sleep 2) <|
                      let rg3 := w.GetCount s3 contractAddress
                      Run.call (.GetCount contractAddress rg3.1) <|
                      match rg3.1 with
                      | .error _ => Run.stop (.fatal "读取计数器失败: %v") rg3.2
                      | .ok finalCount =>
                        Run.print (.count "设置后的计数器值" finalCount) <|
                        Run.stop .returned rg3.2

/-- Whether a call is one of the program's own collaborator calls (`Dial`,
`HexToECDSA`, `NetworkID`, `NewKeyedTransactorWithChainID`, `DeployCounter`,
`WaitMined`, `GetCount`, `Increment`, `SetCount`) and returned an error.  The polls
`bind.WaitMined` makes inside the library are not calls of the program. -/
def errored : Call → Bool
  | .Dial _ (.error _) => true
  | .HexToECDSA _ (.error _) => true
  | .NetworkID (.error _) => true
  | .NewKeyedTransactorWithChainID _ _ (.error _) => true
  | .DeployCounter _ _ (.error _) => true
  | .WaitMined _ _ (.error _) => true
  | .GetCount _ (.error _) => true
  | .Increment _ _ (.error _) => true
  | .SetCount _ _ _ (.error _) => true
  | _ => false

/-- Whether an outcome is the end of the process by `log.Fatal`/`log.Fatalf`. -/
def isFatal : Outcome → Bool
  | .fatal _ => true
  | _ => false

/-- Whether, in a list of calls ending in the given outcome, every call that returned
an error is the last call and the outcome is fatal. -/
def errorsFatal : List Call → Outcome → Bool
  | [], _ => true
  | c :: rest, o => (!errored c || (rest.isEmpty && isFatal o)) && errorsFatal rest o

/-- The process was ended by `log.Fatalf` with the message format `msg`, and the last
call the run made is `c`. -/
def diesAt {σ : Type} (r : Run σ) (c : Call) (msg : String) : Prop :=
  r.calls.getLast? = some c ∧ r.outcome = .fatal msg

/-- Whether a call is an operation on the counter contract or the wait for one of
its transactions: `DeployCounter`, `WaitMined`, `GetCount`, `Increment`, `SetCount`. -/
def isContractOp : Call → Bool
  | .DeployCounter _ _ _ => true
  | .WaitMined _ _ _ => true
  | .GetCount _ _ => true
  | .Increment _ _ _ => true
  | .SetCount _ _ _ _ => true
  | _ => false

/-- The transaction the sample world returns for the deployment. -/
def sampleDeployTx : Transaction := NewTransaction 5 0 0 500000 3 [96, 128]

/-- The transaction the sample world returns for `Increment`. -/
def sampleIncrementTx : Transaction := NewTransaction 6 4242 0 50000 3 [208]

/-- The transaction the sample world returns for `SetCount`. -/
def sampleSetCountTx : Transaction := NewTransaction 7 4242 0 50000 3 [209]

/-- The options the sample world returns for a keyed transactor. -/
def sampleAuth : TransactOpts := { From := 7, chainID := 11155111 }

/-- The receipt the sample world returns when it returns one with a block number. -/
def sampleReceipt : Receipt := { BlockNumber := some 9735712, Status := 1, GasUsed := 21000 }

/-- The polls of a wait that finds the transaction missing once and mined next. -/
def slowPolls (tx : Transaction) : List Call :=
  [.TransactionReceipt tx (.error "not found"), .TransactionReceipt tx (.ok sampleReceipt)]

/-- A world for the sample runs.  The state counts the receipt polls made so far;
the poll number `k` (from 0) returns the receipt when `ready k` and "not found"
otherwise; the receipt carries `blockNumber`.  `GetCount` fails when `getCountFails`.  Every
other call succeeds. -/
def sampleWorld (ready : Nat → Bool) (blockNumber : Option Int) (getCountFails : Bool) :
    World Nat :=
  { Dial := fun s _ => (.ok (), s)
    HexToECDSA := fun _ => .ok sampleKey
    PubkeyToAddress := fun _ => 7
    TxHash := fun tx => tx.Nonce
    NetworkID := fun s => (.ok 11155111, s)
    NewKeyedTransactorWithChainID := fun _ chainID => .ok { From := 7, chainID := chainID }
    DeployCounter := fun s _ _ => (.ok (4242, sampleDeployTx), s)
    TransactionReceipt := fun s _ =>
      (if ready s then .ok { BlockNumber := blockNumber, Status := 1, GasUsed := 21000 }
        else .error "not found", s + 1)
    GetCount := fun s _ => (if getCountFails then .error "execution reverted" else .ok 100, s)
    Increment := fun s _ _ => (.ok sampleIncrementTx, s)
    SetCount := fun s _ _ _ => (.ok sampleSetCountTx, s) }

end Contracts



/-- A library for the sample runs: every function succeeds. -/
def sampleLib : Lib :=
  { HexToECDSA := fun _ => .ok sampleKey
    PubkeyToAddress := fun _ => 7
    HexToAddress := fun _ => 0x489C6e2f86d21F84B5207520D070B12573F739F5
    Sign := fun _ _ _ => .ok { V := 27, R := 1, S := 1 }
    TxHash := fun tx => tx.Nonce }

/-- A block without transactions. -/
def sampleBlock : Block :=
  { Number := 9735711, Hash := 11, ParentHash := 10, Time := 1700000000, Transactions := [],
    GasUsed := 0, GasLimit := 30000000, Coinbase := 99 }

/-- A block with two transactions. -/
def sampleBlockTwo : Block :=
  { sampleBlock with
    Transactions := [NewTransaction 4 8 50 21000 3 [], NewTransaction 9 8 60 21000 5 []] }

/-- A client that answers every block query with the same latest number and block. -/
def blockClient (latest : Nat) (block : Block) : Client Unit :=
  { BlockNumber := fun s => (.ok latest, s)
    BlockByNumber := fun s _ => (.ok block, s)
    BalanceAt := fun s _ _ => (.error "unused", s)
    PendingNonceAt := fun s _ => (.error "unused", s)
    SuggestGasPrice := fun s => (.error "unused", s)
    NetworkID := fun s => (.error "unused", s)
    SendTransaction := fun s _ => (.error "unused", s) }

/-- A client for the sample transfers: fixed balance, gas price and chain ID, every
submission accepted; the state counts the accepted submissions and the pending
nonce is `nonce0` plus that count, as a `uint64`. -/
def countingClient (balance : Int) (nonce0 : Nat) (gasPrice chainID : Int) : Client Nat :=
  { BlockNumber := fun s => (.error "unused", s)
    BlockByNumber := fun s _ => (.error "unused", s)
    BalanceAt := fun s _ _ => (.ok balance, s)
    PendingNonceAt := fun s _ => (.ok ((nonce0 + s) % uint64Size), s)
    SuggestGasPrice := fun s => (.ok gasPrice, s)
    NetworkID := fun s => (.ok chainID, s)
    SendTransaction := fun s _ => (.ok (), s + 1) }

/-- Whether a call is `client.SendTransaction`. -/
def Call.isSend : Call → Bool
  | .SendTransaction _ _ => true
  | _ => false

/-- Whether a step of `sendTransaction` before the submission succeeded: the call
returned no error, and the balance looked up is not zero. -/
def Call.stepOk : Call → Bool
  | .HexToECDSA _ (.error _) => false
  | .BalanceAt _ _ (.error _) => false
  | .BalanceAt _ _ (.ok b) => decide (b ≠ 0)
  | .PendingNonceAt _ (.error _) => false
  | .SuggestGasPrice (.error _) => false
  | .NetworkID (.error _) => false
  | .SignTx _ _ _ (.error _) => false
  | _ => true

/-- The nonce of the transaction submitted, for a `SendTransaction` call. -/
def Call.submittedNonce : Call → Option Nat
  | .SendTransaction tx _ => some tx.Nonce
  | _ => none

/-- The function `sendTransaction` invoked `count` times in sequence: the next
invocation starts only when the one before returned. -/
def sendTransactions {σ : Type} (lib : Lib) (client : Client σ) : Nat → σ → Run σ
  | 0, s => Run.stop .returned s
  | count + 1, s => (sendTransaction lib client s).andThen (sendTransactions lib client count)

/-! ## Theorems -/

/-! ### Projections of runs -/

@[simp] theorem Run.call_calls {σ : Type} (c : Call) (k : Run σ) :
    (Run.call c k).calls = c :: k.calls := rfl
@[simp] theorem Run.call_out {σ : Type} (c : Call) (k : Run σ) :
    (Run.call c k).out = k.out := rfl
@[simp] theorem Run.call_outcome {σ : Type} (c : Call) (k : Run σ) :
    (Run.call c k).outcome = k.outcome := rfl
@[simp] theorem Run.call_state {σ : Type} (c : Call) (k : Run σ) :
    (Run.call c k).state = k.state := rfl
@[simp] theorem Run.print_calls {σ : Type} (o : Output) (k : Run σ) :
    (Run.print o k).calls = k.calls := rfl
@[simp] theorem Run.print_out {σ : Type} (o : Output) (k : Run σ) :
    (Run.print o k).out = o :: k.out := rfl
@[simp] theorem Run.print_outcome {σ : Type} (o : Output) (k : Run σ) :
    (Run.print o k).outcome = k.outcome := rfl
@[simp] theorem Run.print_state {σ : Type} (o : Output) (k : Run σ) :
    (Run.print o k).state = k.state := rfl
@[simp] theorem Run.stop_calls {σ : Type} (o : Outcome) (s : σ) :
    (Run.stop o s).calls = [] := rfl
@[simp] theorem Run.stop_out {σ : Type} (o : Outcome) (s : σ) :
    (Run.stop o s).out = [] := rfl
@[simp] theorem Run.stop_outcome {σ : Type} (o : Outcome) (s : σ) :
    (Run.stop o s).outcome = o := rfl
@[simp] theorem Run.stop_state {σ : Type} (o : Outcome) (s : σ) :
    (Run.stop o s).state = s := rfl


@[simp] theorem Transaction.WithSignature_sig (tx : Transaction) (sg : Signature) :
    (tx.WithSignature sg).sig = some sg := rfl
@[simp] theorem Transaction.WithSignature_Nonce (tx : Transaction) (sg : Signature) :
    (tx.WithSignature sg).Nonce = tx.Nonce := rfl

/-! ### `queryBlockInfo` -/

/-- Claim C7: once the latest block number has been read, `queryBlockInfo` makes exactly
one `BlockByNumber` call; its selector is `nil` (the latest block) if and only if
`targetBlockNumber ≤ 0`, and it is exactly `targetBlockNumber` when that is positive. -/
theorem queryBlockInfo_selector {σ : Type} (lib : Lib) (client : Client σ)
    (targetBlockNumber : Int) (s : σ) (n : Nat) (s1 : σ)
    (h : client.BlockNumber s = (.ok n, s1)) :
    ∃ sel res, (queryBlockInfo lib client targetBlockNumber s).calls
        = [.BlockNumber (.ok n), .BlockByNumber sel res]
      ∧ (sel = none ↔ targetBlockNumber ≤ 0)
      ∧ (0 < targetBlockNumber → sel = some targetBlockNumber) := by
  refine ⟨if targetBlockNumber ≤ 0 then none else some targetBlockNumber,
    (client.BlockByNumber s1 (if targetBlockNumber ≤ 0 then none else some targetBlockNumber)).1,
    ?_, ?_, ?_⟩
  · simp only [queryBlockInfo, h]
    simp
    cases (client.BlockByNumber s1
      (if targetBlockNumber ≤ 0 then none else some targetBlockNumber)).1 with
    | error e => simp
    | ok b =>
      simp
      split
      · split <;> simp
      · simp
  · by_cases ht : targetBlockNumber ≤ 0 <;> simp [ht]
  · intro ht
    have : ¬ targetBlockNumber ≤ 0 := by omega
    simp [this]

/-- The selector at the two inputs of the program text: `0` selects the latest block,
`9735711` selects block 9735711. -/
theorem queryBlockInfo_selector_witness :
    (∃ sel res, (queryBlockInfo sampleLib (blockClient 9735800 sampleBlock) 0 ()).calls
        = [.BlockNumber (.ok 9735800), .BlockByNumber sel res]
      ∧ (sel = none ↔ (0 : Int) ≤ 0) ∧ ((0 : Int) < 0 → sel = some 0))
    ∧ (∃ sel res, (queryBlockInfo sampleLib (blockClient 9735800 sampleBlock) 9735711 ()).calls
        = [.BlockNumber (.ok 9735800), .BlockByNumber sel res]
      ∧ (sel = none ↔ (9735711 : Int) ≤ 0) ∧ ((0 : Int) < 9735711 → sel = some 9735711)) :=
  ⟨queryBlockInfo_selector sampleLib _ 0 () 9735800 () rfl,
   queryBlockInfo_selector sampleLib _ 9735711 () 9735800 () rfl⟩

/-- Claim C10: for every block the client returns, `queryBlockInfo` returns normally
(the index `[0]` never panics); for a block without transactions it prints the block
fields and no transaction, and for a block with transactions it prints the block
fields and then the fields of the transaction at index 0. -/
theorem queryBlockInfo_first_tx_guarded {σ : Type} (lib : Lib) (client : Client σ)
    (targetBlockNumber : Int) (s : σ) (n : Nat) (s1 s2 : σ) (block : Block)
    (h1 : client.BlockNumber s = (.ok n, s1))
    (h2 : client.BlockByNumber s1
      (if targetBlockNumber ≤ 0 then none else some targetBlockNumber) = (.ok block, s2)) :
    (queryBlockInfo lib client targetBlockNumber s).outcome = .returned
    ∧ (block.Transactions = [] →
        (queryBlockInfo lib client targetBlockNumber s).out
          = [.latestBlockNumber n,
             if targetBlockNumber ≤ 0 then .queryingLatest else .queryingBlock targetBlockNumber,
             .blockInfo (bigUint64 block.Number) block.Hash block.ParentHash block.Time 0
               block.GasUsed block.GasLimit block.Coinbase])
    ∧ (∀ tx rest, block.Transactions = tx :: rest →
        (queryBlockInfo lib client targetBlockNumber s).out
          = [.latestBlockNumber n,
             if targetBlockNumber ≤ 0 then .queryingLatest else .queryingBlock targetBlockNumber,
             .blockInfo (bigUint64 block.Number) block.Hash block.ParentHash block.Time
               (rest.length + 1) block.GasUsed block.GasLimit block.Coinbase,
             .firstTx (lib.TxHash tx) tx.GasPrice tx.Gas tx.Value]) := by
  refine ⟨?_, ?_, ?_⟩
  · simp only [queryBlockInfo, h1, h2]
    cases hT : block.Transactions with
    | nil => simp
    | cons tx rest => simp
  · intro hT
    simp only [queryBlockInfo, h1, h2]
    simp [hT]
  · intro tx rest hT
    simp only [queryBlockInfo, h1, h2]
    simp [hT]

/-- A block without transactions prints three lines and returns; a block with two
transactions prints the fields of the first one as well. -/
theorem queryBlockInfo_first_tx_guarded_witness :
    ((queryBlockInfo sampleLib (blockClient 9735800 sampleBlock) 9735711 ()).outcome = .returned
      ∧ (queryBlockInfo sampleLib (blockClient 9735800 sampleBlock) 9735711 ()).out
          = [.latestBlockNumber 9735800, .queryingBlock 9735711,
             .blockInfo 9735711 11 10 1700000000 0 0 30000000 99])
    ∧ ((queryBlockInfo sampleLib (blockClient 9735800 sampleBlockTwo) 9735711 ()).outcome
        = .returned
      ∧ (queryBlockInfo sampleLib (blockClient 9735800 sampleBlockTwo) 9735711 ()).out
          = [.latestBlockNumber 9735800, .queryingBlock 9735711,
             .blockInfo 9735711 11 10 1700000000 2 0 30000000 99,
             .firstTx 4 3 21000 50]) :=
  ⟨⟨(queryBlockInfo_first_tx_guarded sampleLib (blockClient 9735800 sampleBlock) 9735711 ()
      9735800 () () sampleBlock rfl rfl).1,
    (queryBlockInfo_first_tx_guarded sampleLib (blockClient 9735800 sampleBlock) 9735711 ()
      9735800 () () sampleBlock rfl rfl).2.1 rfl⟩,
   ⟨(queryBlockInfo_first_tx_guarded sampleLib (blockClient 9735800 sampleBlockTwo) 9735711 ()
      9735800 () () sampleBlockTwo rfl rfl).1,
    (queryBlockInfo_first_tx_guarded sampleLib (blockClient 9735800 sampleBlockTwo) 9735711 ()
      9735800 () () sampleBlockTwo rfl rfl).2.2 _ _ rfl⟩⟩

/-! ### `sendTransaction` -/

/-- Claim C1: when the key is parsed, the balance looked up is not zero, and the client
returns the nonce `n` and the gas price `g`, the transaction `sendTransaction` builds
is the unsigned transaction with nonce `n`, the configured recipient, value `10^15`,
gas limit `21000`, gas price `g` and empty data; it is the only transaction built. -/
theorem sendTransaction_unsigned_fields {σ : Type} (lib : Lib) (client : Client σ) (s s1 s2 s3 : σ)
    (key : PrivateKey) (balance : Int) (n : Nat) (g : Int)
    (hk : lib.HexToECDSA privateKeyHex = .ok key)
    (hb : client.BalanceAt s (lib.PubkeyToAddress key.PublicKey) none = (.ok balance, s1))
    (hnz : balance ≠ 0)
    (hn : client.PendingNonceAt s1 (lib.PubkeyToAddress key.PublicKey) = (.ok n, s2))
    (hg : client.SuggestGasPrice s2 = (.ok g, s3)) :
    (∃ rest, (sendTransaction lib client s).calls
        = [.HexToECDSA privateKeyHex (.ok key),
           .BalanceAt (lib.PubkeyToAddress key.PublicKey) none (.ok balance),
           .PendingNonceAt (lib.PubkeyToAddress key.PublicKey) (.ok n),
           .SuggestGasPrice (.ok g),
           .NewTransaction
             { Nonce := n, To := lib.HexToAddress toAddress, Value := 10 ^ 15, Gas := 21000,
               GasPrice := g, Data := [], sig := none }] ++ rest)
    ∧ (∀ tx, Call.NewTransaction tx ∈ (sendTransaction lib client s).calls →
        tx = { Nonce := n, To := lib.HexToAddress toAddress, Value := 10 ^ 15, Gas := 21000,
               GasPrice := g, Data := [], sig := none }) := by
  simp only [sendTransaction, hk, hb, hn, hg, PrivateKey.Public]
  simp [hnz, NewTransaction]
  intro a
  split <;> simp
  split <;> simp
  split <;> simp

/-- Claim C3: in every run of `sendTransaction`: if every step before the submission
succeeded (no error, balance not zero), `client.SendTransaction` is called exactly
once, as the last call, after each earlier step ran once, with the transaction that
`SignTx` returned for the built one; if some step before it failed, it is called
zero times; a `SendTransaction` call is never followed by another call; and the
transaction submitted always carries a signature and is the result of signing the
transaction built in this run. -/
theorem sendTransaction_submits_once {σ : Type} (lib : Lib) (client : Client σ) (s : σ) :
    ((∀ c ∈ (sendTransaction lib client s).calls, c.isSend = false → c.stepOk = true) →
      (sendTransaction lib client s).calls.countP Call.isSend = 1
      ∧ ∃ key addr bal n g built chainID sg res,
        (sendTransaction lib client s).calls
          = [.HexToECDSA privateKeyHex (.ok key), .BalanceAt addr none (.ok bal),
             .PendingNonceAt addr (.ok n), .SuggestGasPrice (.ok g), .NewTransaction built,
             .NetworkID (.ok chainID),
             .SignTx built (NewEIP155Signer chainID) key (.ok (built.WithSignature sg)),
             .SendTransaction (built.WithSignature sg) res])
    ∧ ((∃ c ∈ (sendTransaction lib client s).calls, c.isSend = false ∧ c.stepOk = false) →
        (sendTransaction lib client s).calls.countP Call.isSend = 0)
    ∧ (∀ c ∈ (sendTransaction lib client s).calls.dropLast, c.isSend = false)
    ∧ (∀ tx res, Call.SendTransaction tx res ∈ (sendTransaction lib client s).calls →
        tx.sig ≠ none ∧ ∃ built signer key,
          Call.NewTransaction built ∈ (sendTransaction lib client s).calls
          ∧ Call.SignTx built signer key (.ok tx) ∈ (sendTransaction lib client s).calls) := by
  rcases hk : lib.HexToECDSA privateKeyHex with e | key
  · simp [sendTransaction, hk, Call.isSend, Call.stepOk]
  rcases hb : client.BalanceAt s (lib.PubkeyToAddress key.PublicKey) none with ⟨rb, s1⟩
  rcases rb with e | bal
  · simp [sendTransaction, hk, hb, PrivateKey.Public, Call.isSend, Call.stepOk]
  by_cases hz : bal = 0
  · simp [sendTransaction, hk, hb, hz, PrivateKey.Public, Call.isSend, Call.stepOk]
  rcases hn : client.PendingNonceAt s1 (lib.PubkeyToAddress key.PublicKey) with ⟨rn, s2⟩
  rcases rn with e | n
  · simp [sendTransaction, hk, hb, hz, hn, PrivateKey.Public, Call.isSend, Call.stepOk]
  rcases hg : client.SuggestGasPrice s2 with ⟨rg, s3⟩
  rcases rg with e | g
  · simp [sendTransaction, hk, hb, hz, hn, hg, PrivateKey.Public, Call.isSend, Call.stepOk]
  rcases hc : client.NetworkID s3 with ⟨rc, s4⟩
  rcases rc with e | chainID
  · simp [sendTransaction, hk, hb, hz, hn, hg, hc, PrivateKey.Public, Call.isSend, Call.stepOk]
  rcases hs : lib.Sign (NewTransaction n (lib.HexToAddress toAddress) 1000000000000000 21000 g [])
    (NewEIP155Signer chainID) key with e | sg
  · simp [sendTransaction, hk, hb, hz, hn, hg, hc, hs, Lib.SignTx, PrivateKey.Public,
      Call.isSend, Call.stepOk]
  rcases ht : client.SendTransaction s4 ((NewTransaction n (lib.HexToAddress toAddress)
    1000000000000000 21000 g []).WithSignature sg) with ⟨rt, s5⟩
  rcases rt with e | u
  · simp [sendTransaction, hk, hb, hz, hn, hg, hc, hs, ht, Lib.SignTx, PrivateKey.Public,
      Call.isSend, Call.stepOk]
  · simp [sendTransaction, hk, hb, hz, hn, hg, hc, hs, ht, Lib.SignTx, PrivateKey.Public,
      Call.isSend, Call.stepOk]

/-- Sample runs: with a balance of `10^18` the transfer is submitted once, with a
balance of `0` it is not submitted. -/
theorem sendTransaction_submits_once_witness :
    ((sendTransaction sampleLib (countingClient (10 ^ 18) 5 20000000000 11155111) 0).calls.countP
        Call.isSend = 1)
    ∧ ((sendTransaction sampleLib (countingClient 0 5 20000000000 11155111) 0).calls.countP
        Call.isSend = 0) :=
  ⟨((sendTransaction_submits_once sampleLib (countingClient (10 ^ 18) 5 20000000000 11155111)
      0).1 (by simp [sendTransaction, sampleLib, countingClient, PrivateKey.Public, Lib.SignTx,
        Call.stepOk])).1,
   (sendTransaction_submits_once sampleLib (countingClient 0 5 20000000000 11155111) 0).2.1
      ⟨.BalanceAt 7 none (.ok 0), by
        simp [sendTransaction, sampleLib, countingClient, PrivateKey.Public, Call.stepOk,
          Call.isSend]⟩⟩

/-- The scenario of the specification: nonce 5, gas price 20000000000 and balance
`10^18` give the unsigned transaction with these fields. -/
theorem sendTransaction_unsigned_fields_witness :
    (∃ rest, (sendTransaction sampleLib (countingClient (10 ^ 18) 5 20000000000 11155111) 0).calls
        = [.HexToECDSA privateKeyHex (.ok sampleKey),
           .BalanceAt 7 none (.ok (10 ^ 18)),
           .PendingNonceAt 7 (.ok 5),
           .SuggestGasPrice (.ok 20000000000),
           .NewTransaction
             { Nonce := 5, To := 0x489C6e2f86d21F84B5207520D070B12573F739F5, Value := 10 ^ 15,
               Gas := 21000, GasPrice := 20000000000, Data := [], sig := none }] ++ rest)
    ∧ (∀ tx, Call.NewTransaction tx
          ∈ (sendTransaction sampleLib (countingClient (10 ^ 18) 5 20000000000 11155111) 0).calls →
        tx = { Nonce := 5, To := 0x489C6e2f86d21F84B5207520D070B12573F739F5, Value := 10 ^ 15,
               Gas := 21000, GasPrice := 20000000000, Data := [], sig := none }) :=
  sendTransaction_unsigned_fields sampleLib (countingClient (10 ^ 18) 5 20000000000 11155111)
    0 0 0 0 sampleKey (10 ^ 18) 5 20000000000 rfl rfl (by norm_num) rfl rfl

/-- Claim C2, at the failing input: with balance 1 wei and gas price 20000000000,
`21000 * gasPrice + 10^15` exceeds the balance, and `sendTransaction` still builds,
signs and submits the transfer. -/
theorem sendTransaction_insufficient_balance_submits :
    (21000 * 20000000000 + 10 ^ 15 : Int) > 1
    ∧ (sendTransaction sampleLib (countingClient 1 5 20000000000 11155111) 0).calls
      = [.HexToECDSA privateKeyHex (.ok sampleKey),
         .BalanceAt 7 none (.ok 1),
         .PendingNonceAt 7 (.ok 5),
         .SuggestGasPrice (.ok 20000000000),
         .NewTransaction (NewTransaction 5 0x489C6e2f86d21F84B5207520D070B12573F739F5 (10 ^ 15)
           21000 20000000000 []),
         .NetworkID (.ok 11155111),
         .SignTx (NewTransaction 5 0x489C6e2f86d21F84B5207520D070B12573F739F5 (10 ^ 15)
           21000 20000000000 []) (NewEIP155Signer 11155111) sampleKey
           (.ok ((NewTransaction 5 0x489C6e2f86d21F84B5207520D070B12573F739F5 (10 ^ 15)
             21000 20000000000 []).WithSignature { V := 27, R := 1, S := 1 })),
         .SendTransaction ((NewTransaction 5 0x489C6e2f86d21F84B5207520D070B12573F739F5 (10 ^ 15)
             21000 20000000000 []).WithSignature { V := 27, R := 1, S := 1 }) (.ok ())]
    ∧ (sendTransaction sampleLib (countingClient 1 5 20000000000 11155111) 0).outcome
      = .returned := by
  refine ⟨by norm_num, ?_, ?_⟩ <;>
    simp [sendTransaction, sampleLib, countingClient, PrivateKey.Public, Lib.SignTx,
      uint64Size]

/-- After a run that returned, the composed run continues from its final state. -/
theorem Run.andThen_returned {σ : Type} (r : Run σ) (k : σ → Run σ)
    (h : r.outcome = .returned) :
    (r.andThen k).calls = r.calls ++ (k r.state).calls
    ∧ (r.andThen k).outcome = (k r.state).outcome
    ∧ (r.andThen k).state = (k r.state).state := by
  simp [Run.andThen, h]

/-- One transfer against the counting client: it returns, the client has accepted
one more submission, and the nonce submitted is the pending nonce. -/
theorem sendTransaction_counting_step (lib : Lib) (key : PrivateKey) (balance : Int)
    (nonce0 : Nat) (gasPrice chainID : Int) (k : Nat)
    (hk : lib.HexToECDSA privateKeyHex = .ok key)
    (hs : ∀ tx signer, ∃ sg, lib.Sign tx signer key = .ok sg)
    (hb : balance ≠ 0) (hlt : nonce0 + k < uint64Size) :
    (sendTransaction lib (countingClient balance nonce0 gasPrice chainID) k).outcome = .returned
    ∧ (sendTransaction lib (countingClient balance nonce0 gasPrice chainID) k).state = k + 1
    ∧ (sendTransaction lib (countingClient balance nonce0 gasPrice chainID) k).calls.filterMap
        Call.submittedNonce = [nonce0 + k] := by
  obtain ⟨sg, hsg⟩ := hs (NewTransaction ((nonce0 + k) % uint64Size) (lib.HexToAddress toAddress)
    1000000000000000 21000 gasPrice []) (NewEIP155Signer chainID)
  have hmod : (nonce0 + k) % uint64Size = nonce0 + k := Nat.mod_eq_of_lt hlt
  rw [hmod] at hsg
  simp [sendTransaction, countingClient, hk, hb, hsg, PrivateKey.Public, Lib.SignTx,
    Call.submittedNonce, hmod]
  rfl

/-- Sequential transfers against the counting client, from any number `k` of
submissions already accepted. -/
theorem sendTransactions_counting (lib : Lib) (key : PrivateKey) (balance : Int)
    (nonce0 : Nat) (gasPrice chainID : Int)
    (hk : lib.HexToECDSA privateKeyHex = .ok key)
    (hs : ∀ tx signer, ∃ sg, lib.Sign tx signer key = .ok sg)
    (hb : balance ≠ 0) :
    ∀ (count k : Nat), nonce0 + k + count ≤ uint64Size →
      (sendTransactions lib (countingClient balance nonce0 gasPrice chainID) count k).outcome
        = .returned
      ∧ (sendTransactions lib (countingClient balance nonce0 gasPrice chainID) count k).state
        = k + count
      ∧ (sendTransactions lib (countingClient balance nonce0 gasPrice chainID) count
          k).calls.filterMap Call.submittedNonce = List.range' (nonce0 + k) count := by
  intro count
  induction count with
  | zero => intro k _; simp [sendTransactions]
  | succ count ih =>
    intro k hle
    obtain ⟨h1, h2, h3⟩ := sendTransaction_counting_step lib key balance nonce0 gasPrice chainID
      k hk hs hb (by omega)
    obtain ⟨a1, a2, a3⟩ := Run.andThen_returned _
      (sendTransactions lib (countingClient balance nonce0 gasPrice chainID) count) h1
    obtain ⟨i1, i2, i3⟩ := ih (k + 1) (by omega)
    simp only [sendTransactions]
    rw [a1, a2, a3, h2]
    refine ⟨i1, by omega, ?_⟩
    rw [List.filterMap_append, h3, i3]
    simp [List.range'_succ, Nat.add_assoc]

/-- Claim C5: `count` sequential invocations of `sendTransaction` against a client
whose pending nonce starts at `n` and grows by one with each accepted submission (all
nonces fitting `uint64`) all return, and the nonces of the transactions submitted
are exactly `n, n+1, ..., n+count-1`, in this order. -/
theorem sendTransactions_nonces_sequential (lib : Lib) (key : PrivateKey) (balance : Int)
    (n count : Nat) (gasPrice chainID : Int)
    (hk : lib.HexToECDSA privateKeyHex = .ok key)
    (hs : ∀ tx signer, ∃ sg, lib.Sign tx signer key = .ok sg)
    (hb : balance ≠ 0) (hfit : n + count ≤ uint64Size) :
    (sendTransactions lib (countingClient balance n gasPrice chainID) count 0).outcome = .returned
    ∧ (sendTransactions lib (countingClient balance n gasPrice chainID) count 0).calls.filterMap
        Call.submittedNonce = List.range' n count := by
  obtain ⟨h1, _, h3⟩ := sendTransactions_counting lib key balance n gasPrice chainID hk hs hb
    count 0 (by omega)
  exact ⟨h1, by simpa using h3⟩

/-- Three sequential transfers from pending nonce 5 submit the nonces 5, 6, 7. -/
theorem sendTransactions_nonces_sequential_witness :
    (sendTransactions sampleLib (countingClient (10 ^ 18) 5 20000000000 11155111) 3 0).outcome
      = .returned
    ∧ (sendTransactions sampleLib (countingClient (10 ^ 18) 5 20000000000 11155111) 3
        0).calls.filterMap Call.submittedNonce = List.range' 5 3 :=
  sendTransactions_nonces_sequential sampleLib sampleKey (10 ^ 18) 5 3 20000000000 11155111 rfl
    (fun _ _ => ⟨_, rfl⟩) (by norm_num) (by norm_num [uint64Size])

/-! ### `contracts/main.go` -/

@[simp] theorem Run.callsThen_calls {σ : Type} (cs : List Call) (k : Run σ) :
    (Run.callsThen cs k).calls = cs ++ k.calls := rfl
@[simp] theorem Run.callsThen_out {σ : Type} (cs : List Call) (k : Run σ) :
    (Run.callsThen cs k).out = k.out := rfl
@[simp] theorem Run.callsThen_outcome {σ : Type} (cs : List Call) (k : Run σ) :
    (Run.callsThen cs k).outcome = k.outcome := rfl
@[simp] theorem Run.callsThen_state {σ : Type} (cs : List Call) (k : Run σ) :
    (Run.callsThen cs k).state = k.state := rfl

/-- The last element of a list that ends in `c :: l2`. -/
theorem getLast?_append_cons {α : Type} (l : List α) (c : α) (l2 : List α) :
    (l ++ c :: l2).getLast? = (c :: l2).getLast? := by
  induction l with
  | nil => rfl
  | cons a l ih =>
    cases l with
    | nil => simp [List.getLast?_cons_cons]
    | cons b l =>
      rw [List.cons_append, List.cons_append, List.getLast?_cons_cons, ← List.cons_append, ih]

/-- The last element of a list that ends in `c :: l2`, behind one more element. -/
theorem getLast?_cons_append_cons {α : Type} (a : α) (l : List α) (c : α) (l2 : List α) :
    (a :: (l ++ c :: l2)).getLast? = (c :: l2).getLast? := by
  rw [← List.cons_append, getLast?_append_cons]

namespace Contracts

/-- Every call `bind.WaitMined` makes is a receipt poll for its transaction. -/
theorem WaitMined_polls {σ : Type} (w : World σ) (ctx : Context) (tx : Transaction) :
    ∀ (fuel tick : Nat) (s : σ), ∀ c ∈ (WaitMined w ctx tx fuel tick s).1,
      ∃ res, c = .TransactionReceipt tx res := by
  intro fuel
  induction fuel with
  | zero => intro tick s c hc; simp [WaitMined] at hc
  | succ fuel ih =>
    intro tick s c hc
    simp only [WaitMined] at hc
    split at hc
    · simp at hc; exact ⟨_, hc⟩
    · split at hc
      · simp at hc; exact ⟨_, hc⟩
      · simp at hc
        rcases hc with rfl | hc
        · exact ⟨_, rfl⟩
        · exact ih _ _ c hc

/-- When `bind.WaitMined` returns a receipt, its last call is the poll the client
answered with that receipt. -/
theorem WaitMined_receipt_last {σ : Type} (w : World σ) (ctx : Context) (tx : Transaction) :
    ∀ (fuel tick : Nat) (s : σ) (receipt : Receipt),
      (WaitMined w ctx tx fuel tick s).2.1 = some (.ok receipt) →
      (WaitMined w ctx tx fuel tick s).1.getLast?
        = some (.TransactionReceipt tx (.ok receipt)) := by
  intro fuel
  induction fuel with
  | zero => intro tick s receipt h; simp [WaitMined] at h
  | succ fuel ih =>
    intro tick s receipt h
    simp only [WaitMined] at h ⊢
    split at h
    · rename_i r hr
      simp at h
      simp [hr, h]
    · rename_i e hr
      split at h
      · simp at h
      · rename_i hdone
        simp only [hr, hdone]
        have := ih _ _ _ h
        simp only [Bool.false_eq_true, ↓reduceIte]
        rw [List.getLast?_cons, this]
        simp

/-- Under `context.Background()` a wait against a client that never returns the
receipt has not returned after any number of polls: every call it made is a failed
poll. -/
theorem WaitMined_background_pending {σ : Type} (w : World σ) (tx : Transaction)
    (never : ∀ s, ∃ e, (w.TransactionReceipt s tx).1 = .error e) :
    ∀ (fuel tick : Nat) (s : σ),
      (WaitMined w .Background tx fuel tick s).2.1 = none
      ∧ (WaitMined w .Background tx fuel tick s).1.length = fuel
      ∧ ∀ c ∈ (WaitMined w .Background tx fuel tick s).1,
          ∃ e, c = .TransactionReceipt tx (.error e) := by
  intro fuel
  induction fuel with
  | zero => intro tick s; simp [WaitMined]
  | succ fuel ih =>
    intro tick s
    obtain ⟨e, he⟩ := never s
    obtain ⟨i1, i2, i3⟩ := ih (tick + 1) (w.TransactionReceipt s tx).2
    simp only [WaitMined, he, Context.doneAt]
    refine ⟨by simpa using i1, by simpa using i2, ?_⟩
    intro c hc
    simp at hc
    rcases hc with rfl | hc
    · exact ⟨e, rfl⟩
    · exact i3 c hc

/-- Claim C6, as amended: a `bind.WaitMined` step of the program runs under
`context.Background()`; against a client that never returns the receipt it is still
waiting after any number of polls: the run is blocked, every call made is a failed
poll, and no error (no confirmation timeout) is returned. -/
theorem awaitMined_never_times_out {σ : Type} (w : World σ) (tx : Transaction)
    (never : ∀ s, ∃ e, (w.TransactionReceipt s tx).1 = .error e)
    (fuel : Nat) (s : σ) (k : Receipt → σ → Run σ) :
    (awaitMined w fuel tx s k).outcome = .blocked
    ∧ (awaitMined w fuel tx s k).calls.length = fuel
    ∧ ∀ c ∈ (awaitMined w fuel tx s k).calls,
        ∃ e, c = .TransactionReceipt tx (.error e) := by
  obtain ⟨h1, h2, h3⟩ := WaitMined_background_pending w tx never fuel 0 s
  simp only [awaitMined, h1]
  refine ⟨by simp, by simpa using h2, ?_⟩
  intro c hc
  simp at hc
  exact h3 c hc

/-- The wait for the deployment against the sample client that never returns a
receipt is still blocked after 1000 polls. -/
theorem awaitMined_never_times_out_witness :
    (awaitMined (sampleWorld (fun _ => false) (some 9735712) false) 1000 sampleDeployTx 0
        (fun _ s => Run.stop .returned s)).outcome = .blocked
    ∧ (awaitMined (sampleWorld (fun _ => false) (some 9735712) false) 1000 sampleDeployTx 0
        (fun _ s => Run.stop .returned s)).calls.length = 1000
    ∧ ∀ c ∈ (awaitMined (sampleWorld (fun _ => false) (some 9735712) false) 1000
        sampleDeployTx 0 (fun _ s => Run.stop .returned s)).calls,
          ∃ e, c = .TransactionReceipt sampleDeployTx (.error e) :=
  awaitMined_never_times_out (sampleWorld (fun _ => false) (some 9735712) false) sampleDeployTx
    (fun _ => ⟨"not found", rfl⟩) 1000 0 _

/-- Claim C6 fails on the program: against the sample client that never returns a
receipt, no number of polls lets the run end, so no confirmation-timeout error is
ever reported. -/
theorem main_never_mined_blocks :
    ¬ ∃ fuel, (main (sampleWorld (fun _ => false) (some 9735712) false) fuel 0).outcome
        ≠ .blocked := by
  rintro ⟨fuel, h⟩
  apply h
  obtain ⟨h1, -, -⟩ := WaitMined_background_pending
    (sampleWorld (fun _ => false) (some 9735712) false)
    sampleDeployTx (fun _ => ⟨"not found", rfl⟩) fuel 0 0
  simp [main, sampleWorld, awaitMined, PrivateKey.Public] at h1 ⊢
  simp [h1]

/-- Claim C8: in a run of the contract program in which every collaborator call
succeeds (each `bind.WaitMined` returns a receipt, after however many polls, and the
receipt carries its block number), the program returns, its calls are exactly the
ones listed, in this order, with the results the collaborators gave, and its
contract operations are exactly `DeployCounter(100)`, `WaitMined(deploy tx)`,
`GetCount`, `Increment`, `WaitMined(increment tx)`, `GetCount`, `SetCount(999)`,
`WaitMined(setCount tx)`, `GetCount`; each wait ends with the poll in which the
client returned the receipt of the transaction sent just before it. -/
theorem main_contract_sequence {σ : Type} (w : World σ) (fuel : Nat)
    (s s1 s2 s3 s4 s5 s6 s7 s8 s9 s10 s11 : σ) (u : Unit) (key : PrivateKey) (chainID : Int)
    (auth : TransactOpts) (addr : Address) (dtx itx stx : Transaction)
    (polls1 polls2 polls3 : List Call) (r1 r2 r3 : Receipt) (b1 b2 b3 : Int) (c1 c2 c3 : Int)
    (hd : w.Dial s rpcURL = (.ok u, s1))
    (hk : w.HexToECDSA privateKeyHex = .ok key)
    (hc : w.NetworkID s1 = (.ok chainID, s2))
    (ha : w.NewKeyedTransactorWithChainID key chainID = .ok auth)
    (hdep : w.DeployCounter s2 auth 100 = (.ok (addr, dtx), s3))
    (hw1 : WaitMined w .Background dtx fuel 0 s3 = (polls1, some (.ok r1), s4))
    (hb1 : r1.BlockNumber = some b1)
    (hg1 : w.GetCount s4 addr = (.ok c1, s5))
    (hi : w.Increment s5 addr auth = (.ok itx, s6))
    (hw2 : WaitMined w .Background itx fuel 0 s6 = (polls2, some (.ok r2), s7))
    (hb2 : r2.BlockNumber = some b2)
    (hg2 : w.GetCount s7 addr = (.ok c2, s8))
    (hs : w.SetCount s8 addr auth 999 = (.ok stx, s9))
    (hw3 : WaitMined w .Background stx fuel 0 s9 = (polls3, some (.ok r3), s10))
    (hb3 : r3.BlockNumber = some b3)
    (hg3 : w.GetCount s10 addr = (.ok c3, s11)) :
    (main w fuel s).outcome = .returned
    ∧ (main w fuel s).calls
        = [.Dial rpcURL (.ok u), .HexToECDSA privateKeyHex (.ok key), .NetworkID (.ok chainID),
           .NewKeyedTransactorWithChainID key chainID (.ok auth),
           .DeployCounter auth 100 (.ok (addr, dtx))]
          ++ polls1
          ++ [.WaitMined .Background dtx (.ok r1), .Sleep 3, .GetCount addr (.ok c1),
              .NewKeyedTransactorWithChainID key chainID (.ok auth),
              .Increment addr auth (.ok itx)]
          ++ polls2
          ++ [.WaitMined .Background itx (.ok r2), .Sleep 2, .GetCount addr (.ok c2),
              .NewKeyedTransactorWithChainID key chainID (.ok auth),
              .SetCount addr auth 999 (.ok stx)]
          ++ polls3
          ++ [.WaitMined .Background stx (.ok r3), .Sleep 2, .GetCount addr (.ok c3)]
    ∧ (main w fuel s).calls.filter isContractOp
        = [.DeployCounter auth 100 (.ok (addr, dtx)),
           .WaitMined .Background dtx (.ok r1),
           .GetCount addr (.ok c1),
           .Increment addr auth (.ok itx),
           .WaitMined .Background itx (.ok r2),
           .GetCount addr (.ok c2),
           .SetCount addr auth 999 (.ok stx),
           .WaitMined .Background stx (.ok r3),
           .GetCount addr (.ok c3)]
    ∧ polls1.getLast? = some (.TransactionReceipt dtx (.ok r1))
    ∧ polls2.getLast? = some (.TransactionReceipt itx (.ok r2))
    ∧ polls3.getLast? = some (.TransactionReceipt stx (.ok r3)) := by
  have hp : ∀ (tx : Transaction) (st : σ) (polls : List Call) (r : Receipt) (st2 : σ),
      WaitMined w .Background tx fuel 0 st = (polls, some (.ok r), st2) →
      polls.filter isContractOp = []
        ∧ polls.getLast? = some (.TransactionReceipt tx (.ok r)) := by
    intro tx st polls r st2 h
    have h1 := WaitMined_polls w .Background tx fuel 0 st
    have h2 := WaitMined_receipt_last w .Background tx fuel 0 st r (by rw [h])
    rw [h] at h1 h2
    refine ⟨?_, h2⟩
    rw [List.filter_eq_nil_iff]
    intro c hc
    obtain ⟨res, rfl⟩ := h1 c hc
    simp [isContractOp]
  obtain ⟨f1, l1⟩ := hp _ _ _ _ _ hw1
  obtain ⟨f2, l2⟩ := hp _ _ _ _ _ hw2
  obtain ⟨f3, l3⟩ := hp _ _ _ _ _ hw3
  have hcalls : (main w fuel s).calls
        = [.Dial rpcURL (.ok u), .HexToECDSA privateKeyHex (.ok key), .NetworkID (.ok chainID),
           .NewKeyedTransactorWithChainID key chainID (.ok auth),
           .DeployCounter auth 100 (.ok (addr, dtx))]
          ++ polls1
          ++ [.WaitMined .Background dtx (.ok r1), .Sleep 3, .GetCount addr (.ok c1),
              .NewKeyedTransactorWithChainID key chainID (.ok auth),
              .Increment addr auth (.ok itx)]
          ++ polls2
          ++ [.WaitMined .Background itx (.ok r2), .Sleep 2, .GetCount addr (.ok c2),
              .NewKeyedTransactorWithChainID key chainID (.ok auth),
              .SetCount addr auth 999 (.ok stx)]
          ++ polls3
          ++ [.WaitMined .Background stx (.ok r3), .Sleep 2, .GetCount addr (.ok c3)] := by
    simp [main, awaitMined, hd, hk, hc, ha, hdep, hw1, hb1, hg1, hi, hw2, hb2, hg2, hs, hw3,
      hb3, hg3, ptrOf, PrivateKey.Public]
  refine ⟨?_, hcalls, ?_, l1, l2, l3⟩
  · simp [main, awaitMined, hd, hk, hc, ha, hdep, hw1, hb1, hg1, hi, hw2, hb2, hg2, hs, hw3,
      hb3, hg3, ptrOf, PrivateKey.Public]
  · rw [hcalls]
    simp [List.filter_append, f1, f2, f3, isContractOp]

/-- A sample run in which every wait first finds its transaction missing and then
mined: every program call succeeds and the nine contract operations run in order. -/
theorem main_contract_sequence_witness :
    (main (sampleWorld (fun k => k % 2 == 1) (some 9735712) false) 2 0).outcome = .returned
    ∧ (main (sampleWorld (fun k => k % 2 == 1) (some 9735712) false) 2 0).calls
        = [.Dial rpcURL (.ok ()), .HexToECDSA privateKeyHex (.ok sampleKey),
           .NetworkID (.ok 11155111),
           .NewKeyedTransactorWithChainID sampleKey 11155111 (.ok sampleAuth),
           .DeployCounter sampleAuth 100 (.ok (4242, sampleDeployTx))]
          ++ slowPolls sampleDeployTx
          ++ [.WaitMined .Background sampleDeployTx (.ok sampleReceipt), .Sleep 3,
              .GetCount 4242 (.ok 100),
              .NewKeyedTransactorWithChainID sampleKey 11155111 (.ok sampleAuth),
              .Increment 4242 sampleAuth (.ok sampleIncrementTx)]
          ++ slowPolls sampleIncrementTx
          ++ [.WaitMined .Background sampleIncrementTx (.ok sampleReceipt), .Sleep 2,
              .GetCount 4242 (.ok 100),
              .NewKeyedTransactorWithChainID sampleKey 11155111 (.ok sampleAuth),
              .SetCount 4242 sampleAuth 999 (.ok sampleSetCountTx)]
          ++ slowPolls sampleSetCountTx
          ++ [.WaitMined .Background sampleSetCountTx (.ok sampleReceipt), .Sleep 2,
              .GetCount 4242 (.ok 100)]
    ∧ (main (sampleWorld (fun k => k % 2 == 1) (some 9735712) false) 2 0).calls.filter
          isContractOp
        = [.DeployCounter sampleAuth 100 (.ok (4242, sampleDeployTx)),
           .WaitMined .Background sampleDeployTx (.ok sampleReceipt),
           .GetCount 4242 (.ok 100),
           .Increment 4242 sampleAuth (.ok sampleIncrementTx),
           .WaitMined .Background sampleIncrementTx (.ok sampleReceipt),
           .GetCount 4242 (.ok 100),
           .SetCount 4242 sampleAuth 999 (.ok sampleSetCountTx),
           .WaitMined .Background sampleSetCountTx (.ok sampleReceipt),
           .GetCount 4242 (.ok 100)]
    ∧ (slowPolls sampleDeployTx).getLast?
        = some (.TransactionReceipt sampleDeployTx (.ok sampleReceipt))
    ∧ (slowPolls sampleIncrementTx).getLast?
        = some (.TransactionReceipt sampleIncrementTx (.ok sampleReceipt))
    ∧ (slowPolls sampleSetCountTx).getLast?
        = some (.TransactionReceipt sampleSetCountTx (.ok sampleReceipt)) :=
  main_contract_sequence (sampleWorld (fun k => k % 2 == 1) (some 9735712) false) 2
    0 0 0 0 2 2 2 4 4 4 6 6 () sampleKey 11155111 sampleAuth 4242
    sampleDeployTx sampleIncrementTx sampleSetCountTx
    (slowPolls sampleDeployTx) (slowPolls sampleIncrementTx) (slowPolls sampleSetCountTx)
    sampleReceipt sampleReceipt sampleReceipt 9735712 9735712 9735712 100 100 100
    rfl rfl rfl rfl rfl rfl rfl rfl rfl rfl rfl rfl rfl rfl rfl rfl

/-- A receipt without a block number ends the run with a nil-pointer panic right
after the first wait. -/
theorem main_panics_without_block_number :
    (main (sampleWorld (fun _ => true) none false) 1 0).outcome
      = .panic "invalid memory address or nil pointer dereference"
    ∧ (main (sampleWorld (fun _ => true) none false) 1 0).calls.filter isContractOp
      = [.DeployCounter sampleAuth 100 (.ok (4242, sampleDeployTx)),
         .WaitMined .Background sampleDeployTx
           (.ok { BlockNumber := none, Status := 1, GasUsed := 21000 })] := by
  constructor <;>
    simp [main, sampleWorld, awaitMined, WaitMined, PrivateKey.Public, isContractOp, sampleAuth]

/-- Polls are not calls of the program: none of them counts as an errored call. -/
theorem WaitMined_not_errored {σ : Type} (w : World σ) (ctx : Context) (tx : Transaction)
    (fuel tick : Nat) (s : σ) :
    ∀ c ∈ (WaitMined w ctx tx fuel tick s).1, errored c = false := by
  intro c hc
  obtain ⟨res, rfl⟩ := WaitMined_polls w ctx tx fuel tick s c hc
  rfl

/-- Calls that did not return an error in front of a list change nothing. -/
theorem errorsFatal_append (l1 l2 : List Call) (o : Outcome)
    (h : ∀ c ∈ l1, errored c = false) : errorsFatal (l1 ++ l2) o = errorsFatal l2 o := by
  induction l1 with
  | nil => rfl
  | cons c l1 ih =>
    have hc : errored c = false := h c (List.mem_cons_self _ _)
    have := ih (fun c hc => h c (List.mem_cons_of_mem _ hc))
    simp [errorsFatal, hc, this]

/-- A list without an errored call passes. -/
theorem errorsFatal_of_none (l : List Call) (o : Outcome)
    (h : ∀ c ∈ l, errored c = false) : errorsFatal l o = true := by
  have := errorsFatal_append l [] o h
  simpa [errorsFatal] using this

/-- What `errorsFatal` says, call by call. -/
theorem errorsFatal_split (l : List Call) (o : Outcome) (h : errorsFatal l o = true) :
    ∀ (pre : List Call) (c : Call) (post : List Call),
      l = pre ++ c :: post → errored c = true → post = [] ∧ ∃ msg, o = .fatal msg := by
  induction l with
  | nil => intro pre c post hsplit; simp at hsplit
  | cons a l ih =>
    intro pre c post hsplit herr
    simp only [errorsFatal, Bool.and_eq_true, Bool.or_eq_true, Bool.not_eq_true',
      List.isEmpty_iff] at h
    cases pre with
    | nil =>
      simp only [List.nil_append, List.cons.injEq] at hsplit
      obtain ⟨rfl, rfl⟩ := hsplit
      rcases h.1 with h1 | ⟨h1, h2⟩
      · rw [herr] at h1; cases h1
      · refine ⟨h1, ?_⟩
        cases o <;> simp [isFatal] at h2
        exact ⟨_, rfl⟩
    | cons b pre =>
      simp only [List.cons_append, List.cons.injEq] at hsplit
      exact ih h.2 pre c post hsplit.2 herr

/-- In every run of the contract program, a call of the program that returned an
error is the last call, and the process was ended by `log.Fatalf`. -/
theorem main_errorsFatal {σ : Type} (w : World σ) (fuel : Nat) (s : σ) :
    errorsFatal (main w fuel s).calls (main w fuel s).outcome = true := by
  have hp : ∀ (tx : Transaction) (st : σ) (polls : List Call)
      (res : Option (Except String Receipt)) (st2 : σ),
      WaitMined w .Background tx fuel 0 st = (polls, res, st2) →
      ∀ c ∈ polls, errored c = false := by
    intro tx st polls res st2 h
    have := WaitMined_not_errored w .Background tx fuel 0 st
    rwa [h] at this
  rcases hd : w.Dial s rpcURL with ⟨rd, s1⟩
  rcases rd with e | u
  · simp [main, hd, errorsFatal, errored, isFatal]
  rcases hk : w.HexToECDSA privateKeyHex with e | key
  · simp [main, hd, hk, errorsFatal, errored, isFatal]
  rcases hc : w.NetworkID s1 with ⟨rc, s2⟩
  rcases rc with e | chainID
  · simp [main, hd, hk, hc, PrivateKey.Public, errorsFatal, errored, isFatal]
  rcases ha : w.NewKeyedTransactorWithChainID key chainID with e | auth
  · simp [main, hd, hk, hc, ha, PrivateKey.Public, errorsFatal, errored, isFatal]
  rcases hdep : w.DeployCounter s2 auth 100 with ⟨rdep, s3⟩
  rcases rdep with e | ⟨addr, dtx⟩
  · simp [main, hd, hk, hc, ha, hdep, PrivateKey.Public, errorsFatal, errored, isFatal]
  rcases hw1 : WaitMined w .Background dtx fuel 0 s3 with ⟨polls1, res1, s4⟩
  have hp1 := hp _ _ _ _ _ hw1
  rcases res1 with _ | (e | r1)
  · simp [main, awaitMined, ptrOf, PrivateKey.Public, errorsFatal, errored, isFatal, hd, hk, hc,
      ha, hdep, hw1, errorsFatal_of_none _ _ hp1]
  · simp [main, awaitMined, ptrOf, PrivateKey.Public, errorsFatal, errored, isFatal, hd, hk, hc,
      ha, hdep, hw1, errorsFatal_append _ _ _ hp1]
  rcases hb1 : r1.BlockNumber with _ | b1
  · simp [main, awaitMined, ptrOf, PrivateKey.Public, errorsFatal, errored, isFatal, hd, hk, hc,
      ha, hdep, hw1, hb1, errorsFatal_append _ _ _ hp1]
  rcases hg1 : w.GetCount s4 addr with ⟨rhg1, s5⟩
  rcases rhg1 with e | c1
  · simp [main, awaitMined, ptrOf, PrivateKey.Public, errorsFatal, errored, isFatal, hd, hk, hc,
      ha, hdep, hw1, hb1, hg1, errorsFatal_append _ _ _ hp1]
  rcases hi : w.Increment s5 addr auth with ⟨rhi, s6⟩
  rcases rhi with e | itx
  · simp [main, awaitMined, ptrOf, PrivateKey.Public, errorsFatal, errored, isFatal, hd, hk, hc,
      ha, hdep, hw1, hb1, hg1, hi, errorsFatal_append _ _ _ hp1]
  rcases hw2 : WaitMined w .Background itx fuel 0 s6 with ⟨polls2, res2, s7⟩
  have hp2 := hp _ _ _ _ _ hw2
  rcases res2 with _ | (e | r2)
  · simp [main, awaitMined, ptrOf, PrivateKey.Public, errorsFatal, errored, isFatal, hd, hk, hc,
      ha, hdep, hw1, hb1, hg1, hi, hw2, errorsFatal_append _ _ _ hp1, errorsFatal_of_none _ _ hp2]
  · simp [main, awaitMined, ptrOf, PrivateKey.Public, errorsFatal, errored, isFatal, hd, hk, hc,
      ha, hdep, hw1, hb1, hg1, hi, hw2, errorsFatal_append _ _ _ hp1,
      errorsFatal_append _ _ _ hp2]
  rcases hb2 : r2.BlockNumber with _ | b2
  · simp [main, awaitMined, ptrOf, PrivateKey.Public, errorsFatal, errored, isFatal, hd, hk, hc,
      ha, hdep, hw1, hb1, hg1, hi, hw2, hb2, errorsFatal_append _ _ _ hp1,
      errorsFatal_append _ _ _ hp2]
  rcases hg2 : w.GetCount s7 addr with ⟨rhg2, s8⟩
  rcases rhg2 with e | c2
  · simp [main, awaitMined, ptrOf, PrivateKey.Public, errorsFatal, errored, isFatal, hd, hk, hc,
      ha, hdep, hw1, hb1, hg1, hi, hw2, hb2, hg2, errorsFatal_append _ _ _ hp1,
      errorsFatal_append _ _ _ hp2]
  rcases hs : w.SetCount s8 addr auth 999 with ⟨rhs, s9⟩
  rcases rhs with e | stx
  · simp [main, awaitMined, ptrOf, PrivateKey.Public, errorsFatal, errored, isFatal, hd, hk, hc,
      ha, hdep, hw1, hb1, hg1, hi, hw2, hb2, hg2, hs, errorsFatal_append _ _ _ hp1,
      errorsFatal_append _ _ _ hp2]
  rcases hw3 : WaitMined w .Background stx fuel 0 s9 with ⟨polls3, res3, s10⟩
  have hp3 := hp _ _ _ _ _ hw3
  rcases res3 with _ | (e | r3)
  · simp [main, awaitMined, ptrOf, PrivateKey.Public, errorsFatal, errored, isFatal, hd, hk, hc,
      ha, hdep, hw1, hb1, hg1, hi, hw2, hb2, hg2, hs, hw3, errorsFatal_append _ _ _ hp1,
      errorsFatal_append _ _ _ hp2, errorsFatal_of_none _ _ hp3]
  · simp [main, awaitMined, ptrOf, PrivateKey.Public, errorsFatal, errored, isFatal, hd, hk, hc,
      ha, hdep, hw1, hb1, hg1, hi, hw2, hb2, hg2, hs, hw3, errorsFatal_append _ _ _ hp1,
      errorsFatal_append _ _ _ hp2, errorsFatal_append _ _ _ hp3]
  rcases hb3 : r3.BlockNumber with _ | b3
  · simp [main, awaitMined, ptrOf, PrivateKey.Public, errorsFatal, errored, isFatal, hd, hk, hc,
      ha, hdep, hw1, hb1, hg1, hi, hw2, hb2, hg2, hs, hw3, hb3, errorsFatal_append _ _ _ hp1,
      errorsFatal_append _ _ _ hp2, errorsFatal_append _ _ _ hp3]
  rcases hg3 : w.GetCount s10 addr with ⟨rhg3, s11⟩
  rcases rhg3 with e | c3
  · simp [main, awaitMined, ptrOf, PrivateKey.Public, errorsFatal, errored, isFatal, hd, hk, hc,
      ha, hdep, hw1, hb1, hg1, hi, hw2, hb2, hg2, hs, hw3, hb3, hg3,
      errorsFatal_append _ _ _ hp1, errorsFatal_append _ _ _ hp2, errorsFatal_append _ _ _ hp3]
  simp [main, awaitMined, ptrOf, PrivateKey.Public, errorsFatal, errored, isFatal, hd, hk, hc,
    ha, hdep, hw1, hb1, hg1, hi, hw2, hb2, hg2, hs, hw3, hb3, hg3, errorsFatal_append _ _ _ hp1,
    errorsFatal_append _ _ _ hp2, errorsFatal_append _ _ _ hp3]

/-- Claim C4: in the contract program every error returned by a collaborator call is
fatal to the process.  In every run, a call of the program (`Dial`, `HexToECDSA`,
`NetworkID`, `NewKeyedTransactorWithChainID`, `DeployCounter`, `WaitMined`, `GetCount`,
`Increment`, `SetCount`) that returned an error is the last call made and the process
was ended by `log.Fatalf`; and, step by step along the program, when the calls before
a call succeeded and that call returns an error, the run ends right there with the
message of that step.  (The second and third `NewKeyedTransactorWithChainID` are
called with the arguments of the first, so they return what the first returned.) -/
theorem main_errors_are_fatal {σ : Type} (w : World σ) (fuel : Nat) (s : σ) :
    (∀ pre c post, (main w fuel s).calls = pre ++ c :: post → errored c = true →
        post = [] ∧ ∃ msg, (main w fuel s).outcome = .fatal msg)
    ∧
    (∀ e s1, w.Dial s rpcURL = (.error e, s1) →
        diesAt (main w fuel s) (.Dial rpcURL (.error e)) "连接到以太坊节点失败: %v")
    ∧ (∀ u s1, w.Dial s rpcURL = (.ok u, s1) →
      (∀ e, w.HexToECDSA privateKeyHex = .error e →
          diesAt (main w fuel s) (.HexToECDSA privateKeyHex (.error e)) "解析私钥失败: %v")
      ∧ (∀ key, w.HexToECDSA privateKeyHex = .ok key →
        (∀ e s2, w.NetworkID s1 = (.error e, s2) →
            diesAt (main w fuel s) (.NetworkID (.error e)) "获取链 ID 失败: %v")
        ∧ (∀ chainID s2, w.NetworkID s1 = (.ok chainID, s2) →
          (∀ e, w.NewKeyedTransactorWithChainID key chainID = .error e →
              diesAt (main w fuel s) (.NewKeyedTransactorWithChainID key chainID (.error e))
                "创建交易签名器失败: %v")
          ∧ (∀ auth, w.NewKeyedTransactorWithChainID key chainID = .ok auth →
            (∀ e s3, w.DeployCounter s2 auth 100 = (.error e, s3) →
                diesAt (main w fuel s) (.DeployCounter auth 100 (.error e)) "部署合约失败: %v")
            ∧ (∀ addr dtx s3, w.DeployCounter s2 auth 100 = (.ok (addr, dtx), s3) →
              (∀ polls1 r1 b1 s4,
                  WaitMined w .Background dtx fuel 0 s3 = (polls1, some (.ok r1), s4) →
                  r1.BlockNumber = some b1 →
                (∀ e s5, w.GetCount s4 addr = (.error e, s5) →
                    diesAt (main w fuel s) (.GetCount addr (.error e)) "读取计数器失败: %v")
                ∧ (∀ c1 s5, w.GetCount s4 addr = (.ok c1, s5) →
                  (∀ e s6, w.Increment s5 addr auth = (.error e, s6) →
                      diesAt (main w fuel s) (.Increment addr auth (.error e))
                        "调用 increment 失败: %v")
                  ∧ (∀ itx s6, w.Increment s5 addr auth = (.ok itx, s6) →
                    (∀ polls2 r2 b2 s7,
                        WaitMined w .Background itx fuel 0 s6 = (polls2, some (.ok r2), s7) →
                        r2.BlockNumber = some b2 →
                      (∀ e s8, w.GetCount s7 addr = (.error e, s8) →
                          diesAt (main w fuel s) (.GetCount addr (.error e)) "读取计数器失败: %v")
                      ∧ (∀ c2 s8, w.GetCount s7 addr = (.ok c2, s8) →
                        (∀ e s9, w.SetCount s8 addr auth 999 = (.error e, s9) →
                            diesAt (main w fuel s) (.SetCount addr auth 999 (.error e))
                              "调用 setCount 失败: %v")
                        ∧ (∀ stx s9, w.SetCount s8 addr auth 999 = (.ok stx, s9) →
                          (∀ polls3 r3 b3 s10,
                              WaitMined w .Background stx fuel 0 s9
                                = (polls3, some (.ok r3), s10) →
                              r3.BlockNumber = some b3 →
                            (∀ e s11, w.GetCount s10 addr = (.error e, s11) →
                                diesAt (main w fuel s) (.GetCount addr (.error e))
                                  "读取计数器失败: %v"))))))))))))) := by
  refine ⟨errorsFatal_split _ _ (main_errorsFatal w fuel s), ?_⟩
  constructor
  · intro e s1 h
    simp [main, awaitMined, ptrOf, PrivateKey.Public, diesAt, getLast?_cons_append_cons, h]
  intro u s1 hd
  constructor
  · intro e h
    simp [main, awaitMined, ptrOf, PrivateKey.Public, diesAt, getLast?_cons_append_cons, hd, h]
  intro key hk
  constructor
  · intro e s2 h
    simp [main, awaitMined, ptrOf, PrivateKey.Public, diesAt, getLast?_cons_append_cons, hd, hk,
      h]
  intro chainID s2 hc
  constructor
  · intro e h
    simp [main, awaitMined, ptrOf, PrivateKey.Public, diesAt, getLast?_cons_append_cons, hd, hk,
      hc, h]
  intro auth ha
  constructor
  · intro e s3 h
    simp [main, awaitMined, ptrOf, PrivateKey.Public, diesAt, getLast?_cons_append_cons, hd, hk,
      hc, ha, h]
  intro addr dtx s3 hdep
  intro polls1 r1 b1 s4 hw1 hb1
  constructor
  · intro e s5 h
    simp [main, awaitMined, ptrOf, PrivateKey.Public, diesAt, getLast?_cons_append_cons, hd, hk,
      hc, ha, hdep, hw1, hb1, h]
  intro c1 s5 hg1
  constructor
  · intro e s6 h
    simp [main, awaitMined, ptrOf, PrivateKey.Public, diesAt, getLast?_cons_append_cons, hd, hk,
      hc, ha, hdep, hw1, hb1, hg1, h]
  intro itx s6 hi
  intro polls2 r2 b2 s7 hw2 hb2
  constructor
  · intro e s8 h
    simp [main, awaitMined, ptrOf, PrivateKey.Public, diesAt, getLast?_cons_append_cons, hd, hk,
      hc, ha, hdep, hw1, hb1, hg1, hi, hw2, hb2, h]
  intro c2 s8 hg2
  constructor
  · intro e s9 h
    simp [main, awaitMined, ptrOf, PrivateKey.Public, diesAt, getLast?_cons_append_cons, hd, hk,
      hc, ha, hdep, hw1, hb1, hg1, hi, hw2, hb2, hg2, h]
  intro stx s9 hs
  intro polls3 r3 b3 s10 hw3 hb3
  intro e s11 h
  simp [main, awaitMined, ptrOf, PrivateKey.Public, diesAt, getLast?_cons_append_cons, hd, hk,
    hc, ha, hdep, hw1, hb1, hg1, hi, hw2, hb2, hg2, hs, hw3, hb3, h]

/-- A sample run in which the first `GetCount` returns an error: it is the last call,
the process ends with the message of that step, and nothing is called after it. -/
theorem main_errors_are_fatal_witness :
    (main (sampleWorld (fun _ => true) (some 9735712) true) 1 0).calls
      = [.Dial rpcURL (.ok ()), .HexToECDSA privateKeyHex (.ok sampleKey),
         .NetworkID (.ok 11155111),
         .NewKeyedTransactorWithChainID sampleKey 11155111 (.ok sampleAuth),
         .DeployCounter sampleAuth 100 (.ok (4242, sampleDeployTx)),
         .TransactionReceipt sampleDeployTx (.ok sampleReceipt),
         .WaitMined .Background sampleDeployTx (.ok sampleReceipt), .Sleep 3]
        ++ .GetCount 4242 (.error "execution reverted") :: []
    ∧ (([] : List Call) = [] ∧ ∃ msg,
        (main (sampleWorld (fun _ => true) (some 9735712) true) 1 0).outcome = .fatal msg)
    ∧ diesAt (main (sampleWorld (fun _ => true) (some 9735712) true) 1 0)
        (.GetCount 4242 (.error "execution reverted")) "读取计数器失败: %v" :=
  ⟨rfl,
   (main_errors_are_fatal (sampleWorld (fun _ => true) (some 9735712) true) 1 0).1
      [.Dial rpcURL (.ok ()), .HexToECDSA privateKeyHex (.ok sampleKey),
       .NetworkID (.ok 11155111),
       .NewKeyedTransactorWithChainID sampleKey 11155111 (.ok sampleAuth),
       .DeployCounter sampleAuth 100 (.ok (4242, sampleDeployTx)),
       .TransactionReceipt sampleDeployTx (.ok sampleReceipt),
       .WaitMined .Background sampleDeployTx (.ok sampleReceipt), .Sleep 3]
      (.GetCount 4242 (.error "execution reverted")) [] rfl rfl,
   ((((((main_errors_are_fatal (sampleWorld (fun _ => true) (some 9735712) true) 1 0).2.2
      () 0 rfl).2 sampleKey rfl).2 11155111 0 rfl).2 sampleAuth rfl).2 4242 sampleDeployTx 0 rfl
      [.TransactionReceipt sampleDeployTx (.ok sampleReceipt)] sampleReceipt 9735712 1 rfl
      rfl).1 "execution reverted" 1 rfl⟩

end Contracts

/-! ### `weiToEth` -/

/-- The result of `roundHalfEven` is a nearest integer: it is within half a unit of
the quotient. -/
theorem roundHalfEven_near (n d : Nat) (hd : 0 < d) :
    2 * (roundHalfEven n d * d) ≤ 2 * n + d ∧ 2 * n ≤ 2 * (roundHalfEven n d * d) + d := by
  have h := Nat.div_add_mod n d
  have hr := Nat.mod_lt n hd
  have hc : n / d * d = d * (n / d) := Nat.mul_comm _ _
  simp only [roundHalfEven]
  split_ifs with h1 h2 h3
  · constructor <;> omega
  · rw [Nat.add_mul]; constructor <;> omega
  · constructor <;> omega
  · rw [Nat.add_mul]; constructor <;> omega

/-- The exponent of a quotient is at most one more than the difference of the bit
lengths. -/
theorem quoExp_le (a b : Nat) : quoExp a b ≤ (bitLen a : Int) - (bitLen b : Int) + 1 := by
  simp only [quoExp]
  split_ifs <;> omega

/-- The number `10 ^ 18` has 60 bits. -/
theorem bitLen_1e18 : bitLen (10 ^ 18) = 60 := by decide

/-- Rounding `wei / 10 ^ 18` to a binary mantissa at scale `2 ^ s` with `s ≥ 59` and
then to six decimals gives a nearest multiple of `10 ^ -6`. -/
theorem double_round_near (wei s : Nat) (hs : 59 ≤ s) :
    2 * (roundHalfEven (roundHalfEven (wei * 2 ^ s) (10 ^ 18) * 10 ^ 6) (2 ^ s) * 10 ^ 12)
        ≤ 2 * wei + 10 ^ 12
    ∧ 2 * wei
        ≤ 2 * (roundHalfEven (roundHalfEven (wei * 2 ^ s) (10 ^ 18) * 10 ^ 6) (2 ^ s) * 10 ^ 12)
          + 10 ^ 12 := by
  have hP : 0 < 2 ^ s := by positivity
  have hbig : 10 ^ 18 < 2 * 2 ^ s := by
    have : 2 ^ 59 ≤ 2 ^ s := Nat.pow_le_pow_right (by norm_num) hs
    have h60 : (10 : Nat) ^ 18 < 2 * 2 ^ 59 := by norm_num
    omega
  obtain ⟨a1, a2⟩ := roundHalfEven_near (wei * 2 ^ s) (10 ^ 18) (by norm_num)
  obtain ⟨b1, b2⟩ := roundHalfEven_near (roundHalfEven (wei * 2 ^ s) (10 ^ 18) * 10 ^ 6)
    (2 ^ s) hP
  generalize roundHalfEven (roundHalfEven (wei * 2 ^ s) (10 ^ 18) * 10 ^ 6) (2 ^ s) = u at *
  generalize roundHalfEven (wei * 2 ^ s) (10 ^ 18) = m at *
  generalize 2 ^ s = P at *
  constructor
  · have h : P * (2 * (u * 10 ^ 12)) < P * (2 * wei + 10 ^ 12 + 2) := by nlinarith
    have := Nat.lt_of_mul_lt_mul_left h
    omega
  · have h : P * (2 * wei) < P * (2 * (u * 10 ^ 12) + 10 ^ 12 + 2) := by nlinarith
    have := Nat.lt_of_mul_lt_mul_left h
    omega

/-- For a positive amount, `weiToEth` prints the two-step rounding of
`wei / 10 ^ 18` at some binary scale `2 ^ s` with `s ≥ 59`. -/
theorem weiToEth_eq_double_round (wei : Nat) (hpos : 0 < wei) :
    ∃ s, 59 ≤ s ∧ weiToEth (wei : Int)
      = fixedText false
          (roundHalfEven (roundHalfEven (wei * 2 ^ s) (10 ^ 18) * 10 ^ 6) (2 ^ s)) 6 := by
  have hq := quoExp_le wei (10 ^ 18)
  rw [bitLen_1e18] at hq
  have hne : wei ≠ 0 := by omega
  have hshift : (59 : Int) ≤ ((max (bitLen wei) 64 : Nat) : Int) - quoExp wei (10 ^ 18) := by
    have : (bitLen wei : Int) ≤ ((max (bitLen wei) 64 : Nat) : Int) := by
      exact_mod_cast le_max_left _ _
    omega
  refine ⟨(((max (bitLen wei) 64 : Nat) : Int) - quoExp wei (10 ^ 18)).toNat, by omega, ?_⟩
  simp only [weiToEth, BigFloat.SetInt, NewFloat1e18, BigFloat.Quo, BigFloat.TextF,
    BigFloat.scaledDecimal, Int.natAbs_ofNat, if_neg hne]
  generalize ((max (bitLen wei) 64 : Nat) : Int) - quoExp wei (10 ^ 18) = sh at hshift ⊢
  have h1 : sh ≥ 0 := by omega
  have h2 : ¬ (0 - 0 - sh ≥ 0) := by omega
  have h3 : (-(0 - 0 - sh)).toNat = sh.toNat := by
    congr 1
    omega
  have h4 : ¬ ((wei : Int) < 0) := by omega
  simp only [if_pos h1, if_neg h2, h3]
  simp [h4]

/-- The character of a digit below ten is a decimal digit. -/
theorem digitChar_isDigit (k : Nat) (hk : k < 10) : (Nat.digitChar k).isDigit = true := by
  interval_cases k <;> decide

/-- The decimal digits of a number are decimal digit characters. -/
theorem toDigitsCore_isDigit :
    ∀ (fuel n : Nat) (ds : List Char), (∀ c ∈ ds, c.isDigit = true) →
      ∀ c ∈ Nat.toDigitsCore 10 fuel n ds, c.isDigit = true := by
  intro fuel
  induction fuel with
  | zero => intro n ds hds c hc; exact hds c (by simpa [Nat.toDigitsCore] using hc)
  | succ fuel ih =>
    intro n ds hds c hc
    have hd : ∀ c ∈ Nat.digitChar (n % 10) :: ds, c.isDigit = true := by
      intro c hc
      rcases List.mem_cons.1 hc with rfl | h
      · exact digitChar_isDigit _ (Nat.mod_lt _ (by norm_num))
      · exact hds c h
    simp only [Nat.toDigitsCore] at hc
    split_ifs at hc
    · exact hd c hc
    · exact ih _ _ hd c hc

/-- The fraction digits are exactly `k` decimal digit characters. -/
theorem fracDigits_spec : ∀ (k n : Nat),
    (fracDigits k n).length = k ∧ ∀ c ∈ fracDigits k n, c.isDigit = true := by
  intro k
  induction k with
  | zero => intro n; simp [fracDigits]
  | succ k ih =>
    intro n
    obtain ⟨h1, h2⟩ := ih (n / 10)
    refine ⟨by simp [fracDigits, h1], ?_⟩
    intro c hc
    simp only [fracDigits, List.mem_append, List.mem_singleton] at hc
    rcases hc with hc | rfl
    · exact h2 c hc
    · exact digitChar_isDigit _ (Nat.mod_lt _ (by norm_num))

/-- The text `weiToEth` prints is the fixed-point text of a number of `10^-6` units
nearest to `wei / 10^18`. -/
theorem weiToEth_nearest (wei : Nat) :
    ∃ units : Nat,
      weiToEth (wei : Int)
        = String.mk (Nat.toDigits 10 (units / 10 ^ 6) ++ ['.'] ++ fracDigits 6 (units % 10 ^ 6))
      ∧ (∀ c ∈ Nat.toDigits 10 (units / 10 ^ 6), c.isDigit = true)
      ∧ (fracDigits 6 (units % 10 ^ 6)).length = 6
      ∧ (∀ c ∈ fracDigits 6 (units % 10 ^ 6), c.isDigit = true)
      ∧ 2 * (units * 10 ^ 12) ≤ 2 * wei + 10 ^ 12
      ∧ 2 * wei ≤ 2 * (units * 10 ^ 12) + 10 ^ 12 := by
  have hfmt : ∀ units : Nat, fixedText false units 6
      = String.mk (Nat.toDigits 10 (units / 10 ^ 6) ++ ['.'] ++ fracDigits 6 (units % 10 ^ 6)) := by
    intro units
    simp [fixedText]
  have hdig : ∀ units : Nat, (∀ c ∈ Nat.toDigits 10 (units / 10 ^ 6), c.isDigit = true) :=
    fun units => toDigitsCore_isDigit _ _ [] (by simp)
  rcases Nat.eq_zero_or_pos wei with rfl | hpos
  · refine ⟨0, ?_, hdig 0, (fracDigits_spec 6 _).1, (fracDigits_spec 6 _).2, by norm_num,
      by norm_num⟩
    decide
  · obtain ⟨s, hs, heq⟩ := weiToEth_eq_double_round wei hpos
    obtain ⟨b1, b2⟩ := double_round_near wei s hs
    exact ⟨_, heq.trans (hfmt _), hdig _, (fracDigits_spec 6 _).1, (fracDigits_spec 6 _).2,
      b1, b2⟩

/-- At an exact tie of the sixth decimal the digit printed follows the rounded binary
quotient: `0.0000005` and `0.0000015` both print as `0.000001`, `0.0000025` prints as
`0.000002`, and the tie `0.0078125`, which is a binary fraction, goes to the even
digit. -/
theorem weiToEth_ties :
    weiToEth 500000000000 = "0.000001" ∧ weiToEth 1500000000000 = "0.000001"
    ∧ weiToEth 2500000000000 = "0.000002" ∧ weiToEth 7812500000000000 = "0.007812" :=
  ⟨by decide, by decide, by decide, by decide⟩

/-- Claim C9: for every non-negative `wei`, `weiToEth wei` is the decimal text, without
sign or exponent, of a number with exactly six digits after the point that is
nearest to `wei / 10^18` (at most half of `10^-6` away); `weiToEth (10^15)` is
`"0.001000"` and `weiToEth (10^18)` is `"1.000000"`. -/
theorem weiToEth_rounds_to_six_decimals :
    (∀ wei : Nat, ∃ units : Nat,
      weiToEth (wei : Int)
        = String.mk (Nat.toDigits 10 (units / 10 ^ 6) ++ ['.'] ++ fracDigits 6 (units % 10 ^ 6))
      ∧ (∀ c ∈ Nat.toDigits 10 (units / 10 ^ 6), c.isDigit = true)
      ∧ (fracDigits 6 (units % 10 ^ 6)).length = 6
      ∧ (∀ c ∈ fracDigits 6 (units % 10 ^ 6), c.isDigit = true)
      ∧ 2 * (units * 10 ^ 12) ≤ 2 * wei + 10 ^ 12
      ∧ 2 * wei ≤ 2 * (units * 10 ^ 12) + 10 ^ 12)
    ∧ weiToEth (10 ^ 15) = "0.001000"
    ∧ weiToEth (10 ^ 18) = "1.000000" :=
  ⟨weiToEth_nearest, by decide, by decide⟩

end InitBlockchain
